import Mathlib

/-!
Verification of the agentic-rag core: tiered memory (short-term LRU cache,
long-term keyword-similarity store), the memory coordinator, the two planner
variants (ReAct and Chain-of-Thought), the plan execution engine and the
result aggregator.

The Python sources are shallowly embedded: Python `str` values become
`List Char` (so that all text operations stay kernel-computable), Python
floats become `ℚ`, `dict`/`OrderedDict` become association lists in insertion
order, database tables become lists of rows in insertion order, and fallible
code returns `Option`/`Except`.  The `core` module of the repository (the
data-model classes `Query`, `Document`, `AgentResult`, `MemoryEntry`, `Plan`,
`PlanStep` and the enum `AgentType`) is not part of the sources available
here; those definitions are modelled from the spec, as marked in their doc
comments.  Everything else is translated from the named source files.
-/

/-! ## Python string primitives over `List Char` -/

/-- Python strings are modelled as their list of characters. -/
abbrev PyStr := List Char

/-- Characters of a string literal, used to write concrete inputs. -/
def pystr (s : String) : PyStr := s.data

/-- Python `str.lower()`. -/
def pyLower (s : PyStr) : PyStr := s.map Char.toLower

/-- Helper for `pyWords`: accumulates the current word (reversed) while
scanning; mirrors Python `str.split()` which splits on whitespace runs and
drops empty pieces. -/
def splitWsAux : PyStr → PyStr → List PyStr
  | cur, [] => if cur = [] then [] else [cur.reverse]
  | cur, c :: rest =>
    if c.isWhitespace then
      (if cur = [] then splitWsAux [] rest else cur.reverse :: splitWsAux [] rest)
    else splitWsAux (c :: cur) rest

/-- Python `str.split()` with no separator argument. -/
def pyWords (s : PyStr) : List PyStr := splitWsAux [] s

/-- Python `needle in haystack` for strings (substring containment). -/
def containsSub (needle : PyStr) : PyStr → Bool
  | [] => needle.isEmpty
  | c :: rest => needle.isPrefixOf (c :: rest) || containsSub needle rest

/-- Python `set(xs)` for lists: the distinct elements in first-occurrence
order (the cardinality facts are all that the embedded code consumes). -/
def pyset (l : List PyStr) : List PyStr := l.dedup

/-- Size of `set(a) & set(b)`. -/
def interCard (a b : List PyStr) : ℕ :=
  ((pyset a).filter (fun x => x ∈ b)).length

/-- Size of `set(a) | set(b)`. -/
def unionCard (a b : List PyStr) : ℕ := (pyset (a ++ b)).length

/-- Python list slice `l[:n]` for an `int` bound `n` (negative bounds count
from the end, as in Python). -/
def pySliceTo (n : Int) (l : List α) : List α :=
  if 0 ≤ n then l.take n.toNat else l.take (l.length - (-n).toNat)

/-- Python `list.insert(i, x)` (an index past the end appends). -/
def pyInsert (i : ℕ) (x : α) (l : List α) : List α :=
  if i ≥ l.length then l ++ [x] else l.insertIdx i x

/-! ## Ordered association lists (Python `dict` / `OrderedDict`) -/

namespace OD

variable {β : Type}

/-- Python `key in d`. -/
def hasKey (d : List (String × β)) (k : String) : Bool :=
  d.any (fun p => p.1 = k)

/-- Python `d.get(k)` / `d[k]`. -/
def find (d : List (String × β)) (k : String) : Option β :=
  (d.find? (fun p => p.1 = k)).map (·.2)

/-- Python `d[k] = v`: replaces in place if the key exists (keeping its
position), otherwise appends at the end. -/
def insert (d : List (String × β)) (k : String) (v : β) : List (String × β) :=
  if hasKey d k then d.map (fun p => if p.1 = k then (k, v) else p)
  else d ++ [(k, v)]

/-- Python `del d[k]`. -/
def erase (d : List (String × β)) (k : String) : List (String × β) :=
  d.filter (fun p => ¬ p.1 = k)

/-- Python `OrderedDict.move_to_end(k)`. -/
def moveToEnd (d : List (String × β)) (k : String) : List (String × β) :=
  match find d k with
  | none => d
  | some v => erase d k ++ [(k, v)]

end OD

/-! ## Core data model

Modelled from the spec: the repository's `core` module (imported everywhere
as `from core import ...`) is not among the available sources, so the data
classes below follow §3 DATA MODEL of the spec.  Fields that no embedded
operation reads (timestamps on `Query`/`Document`, free-form metadata
dictionaries) are either omitted or narrowed to the single key the code
reads, as noted per field. -/

/-- Modelled from the spec: the `AgentType` enum; the variants are those the
source files name (`AgentType.MEMORY`, `.SEARCH`, `.LOCAL_DATA`, `.CLOUD`,
`.AGGREGATOR`, `.GENERATIVE`). -/
inductive AgentType where
  | MEMORY | SEARCH | LOCAL_DATA | CLOUD | AGGREGATOR | GENERATIVE
deriving DecidableEq, Repr

/-- Modelled from the spec: `Query {id, text, timestamp, metadata}`;
timestamp and metadata are never read by the verified operations and are
omitted.  `id` is a fresh UUID per created query, so it is a caller-supplied
`String` here. -/
structure Query where
  id : String
  text : PyStr
deriving DecidableEq, Repr

/-- Modelled from the spec: `Document {id, content, source, timestamp,
metadata}`; the timestamp is unread and omitted, and of the metadata
dictionary only the `"relevance"` key (read by the aggregator with default
`0.0`) is kept, as an optional rational. -/
structure Document where
  id : String
  content : PyStr
  source : String
  relevanceMeta : Option ℚ := none
deriving DecidableEq, Repr

/-- Python `doc.metadata.get("relevance", 0.0)`. -/
def Document.relevance (d : Document) : ℚ := d.relevanceMeta.getD 0

/-- Modelled from the spec: `AgentResult {agent_id, agent_type, query_id,
documents[], confidence, processing_time, metadata}`; processing time is
unread by the verified logic, and of the metadata dictionary only the
`"query_text"` key (read by the Chain-of-Thought planner, default `""`) is
kept. -/
structure AgentResult where
  agent_id : String
  agent_type : AgentType
  query_id : String
  documents : List Document
  confidence : ℚ
  metaQueryText : PyStr := []
deriving DecidableEq, Repr

/-- Modelled from the spec: `MemoryEntry {id, query_id, document_ids[],
created_at, accessed_at, access_count, relevance_score, memory_type,
metadata}`; `accessed_at` and the metadata dictionary are unread by the
verified logic and omitted; `created_at` is a rational epoch timestamp. -/
structure MemoryEntry where
  id : String
  query_id : String
  document_ids : List String
  created_at : ℚ
  access_count : ℕ := 0
  relevance_score : ℚ
  memory_type : String
deriving DecidableEq, Repr

/-- Modelled from the spec: `MemoryEntry.update_access()` bumps the access
statistics (`access_count`, `accessed_at`) of an entry in place. -/
def MemoryEntry.update_access (e : MemoryEntry) : MemoryEntry :=
  { e with access_count := e.access_count + 1 }

/-- Modelled from the spec: `PlanStep.status ∈ {pending, in_progress,
completed, failed}`. -/
inductive StepStatus where
  | pending | in_progress | completed | failed
deriving DecidableEq, Repr

/-- Modelled from the spec: `PlanStep {id, plan_id, agent_type, description,
status, result, start_time, end_time}`; ids and times are never read by the
verified logic and are omitted. -/
structure PlanStep where
  agent_type : AgentType
  description : PyStr
  status : StepStatus := .pending
  result : Option AgentResult := none
deriving DecidableEq, Repr

/-- Modelled from the spec: `Plan.status ∈ {created, executing, completed,
failed}`. -/
inductive PlanStatus where
  | created | executing | completed | failed
deriving DecidableEq, Repr

/-- Modelled from the spec: `Plan {id, query_id, planner_type, steps[],
status}`. -/
structure Plan where
  id : String
  query_id : String
  planner_type : String
  steps : List PlanStep := []
  status : PlanStatus := .created
deriving DecidableEq, Repr

/-- Modelled from the spec: `Plan.add_step(agent_type, description)` appends
a fresh pending step. -/
def Plan.add_step (p : Plan) (t : AgentType) (d : PyStr) : Plan :=
  { p with steps := p.steps ++ [{ agent_type := t, description := d }] }

/-! ## Short-term memory (`src/agentic-rag/memory/short_term.py`)

The `OrderedDict` of memory entries and the document dictionary become
ordered association lists; `time.time()` becomes an explicit rational
parameter; the fresh UUID that `MemoryEntry` generates in `store` becomes an
explicit `entryId` parameter. -/

/-- State of `ShortTermMemory.__init__`: capacity, ttl, the LRU-ordered
entry map (head = least recently used) and the document store. -/
structure ShortTermMemory where
  capacity : Int
  ttl : ℚ
  memory : List (String × MemoryEntry) := []
  document_store : List (String × Document) := []
deriving DecidableEq, Repr

namespace ShortTermMemory

/-- Keyword set of a query text: `set(text.lower().split())`, kept as a
deduplicated list in first-occurrence order. -/
def keywords (txt : PyStr) : List PyStr := pyset (pyWords (pyLower txt))

/-- Embeds `ShortTermMemory._cleanup_documents`: drop each listed document
that no remaining memory entry references. -/
def cleanupDocuments (memory : List (String × MemoryEntry))
    (store : List (String × Document)) (ids : List String) :
    List (String × Document) :=
  ids.foldl
    (fun st d =>
      if memory.any (fun p => d ∈ p.2.document_ids) then st
      else OD.erase st d)
    store

/-- Embeds `ShortTermMemory.remove`. -/
def remove (s : ShortTermMemory) (memory_id : String) :
    ShortTermMemory × Bool :=
  match OD.find s.memory memory_id with
  | none => (s, false)
  | some e =>
    let mem := OD.erase s.memory memory_id
    ({ s with
        memory := mem
        document_store := cleanupDocuments mem s.document_store e.document_ids },
      true)

/-- Embeds `ShortTermMemory._clear_expired`: no-op when ttl ≤ 0, otherwise
remove every entry whose age exceeds ttl. -/
def clearExpired (s : ShortTermMemory) (t : ℚ) : ShortTermMemory :=
  if s.ttl ≤ 0 then s
  else
    let expired := (s.memory.filter (fun p => t - p.2.created_at > s.ttl)).map (·.1)
    expired.foldl (fun s i => (s.remove i).1) s

/-- Scoring of one entry inside the `retrieve` loop; `none` models the
`continue` branches (expired entry, unrecoverable stored text, no common
keywords). -/
def entryScore (s : ShortTermMemory) (q : Query) (t : ℚ) (e : MemoryEntry) :
    Option ℚ :=
  if s.ttl > 0 ∧ t - e.created_at > s.ttl then none
  else
    let storedText : PyStr :=
      if e.query_id ≠ "" ∧ e.query_id = q.id then q.text else []
    if storedText = [] then none
    else
      let qk := keywords q.text
      let sk := keywords storedText
      let common := interCard qk sk
      if common = 0 then none
      else
        let score : ℚ := (common : ℚ) / (max qk.length sk.length : ℕ)
        let recency : ℚ := if s.ttl > 0 then 1 - (t - e.created_at) / s.ttl else 1
        let access : ℚ := min 1 ((e.access_count : ℚ) / 10)
        some (score * (6/10) + recency * (3/10) + access * (1/10))

/-- The best-match fold of `retrieve`: strict improvement, so the earliest
entry wins ties; starts from `(None, 0.0)`. -/
def bestMatch (s : ShortTermMemory) (q : Query) (t : ℚ) :
    Option MemoryEntry × ℚ :=
  s.memory.foldl
    (fun acc p =>
      match entryScore s q t p.2 with
      | none => acc
      | some sc => if sc > acc.2 then (some p.2, sc) else acc)
    (none, 0)

/-- Embeds `ShortTermMemory.retrieve`; returns the optional result together
with the post-state (expiration purge, LRU promotion, access bump). -/
def retrieve (s : ShortTermMemory) (q : Query) (t : ℚ) :
    Option AgentResult × ShortTermMemory :=
  let s1 := s.clearExpired t
  match bestMatch s1 q t with
  | (some e, hi) =>
    if hi ≥ 7/10 then
      let mem1 := OD.moveToEnd s1.memory e.id
      let mem2 := OD.insert mem1 e.id e.update_access
      let docs := e.document_ids.filterMap (fun d => OD.find s1.document_store d)
      (some { agent_id := "short_term_memory", agent_type := .MEMORY,
              query_id := q.id, documents := docs, confidence := hi },
        { s1 with memory := mem2 })
    else (none, s1)
  | (none, _) => (none, s1)

/-- The `while len(self.memory) > self.capacity` eviction loop of `store`;
`next(iter({}.items()))` on an empty map raises `StopIteration`, modelled as
an error. -/
def evictLoop (s : ShortTermMemory) : Except String ShortTermMemory :=
  if h : (s.memory.length : Int) > s.capacity then
    match hm : s.memory with
    | [] => .error "StopIteration"
    | (k, _) :: _ => evictLoop (s.remove k).1
  else .ok s
termination_by s.memory.length
decreasing_by
  simp only [remove, OD.find, OD.erase, hm]
  simp only [List.find?_cons_of_pos, decide_eq_true_eq, Option.map_some,
    List.filter_cons, not_true_eq_false, decide_not]
  simp only [decide_True, Bool.not_true, Bool.false_eq_true, if_false,
    List.length_cons]
  exact Nat.lt_succ_of_le (List.length_filter_le _ _)

/-- Embeds `ShortTermMemory.store`: insert the documents, append the new
entry (with caller-supplied fresh id and current time), then evict from the
least-recently-used end while over capacity. -/
def store (s : ShortTermMemory) (q : Query) (result : AgentResult)
    (entryId : String) (now : ℚ) : Except String ShortTermMemory :=
  let docStore :=
    result.documents.foldl (fun st d => OD.insert st d.id d) s.document_store
  let e : MemoryEntry :=
    { id := entryId, query_id := q.id,
      document_ids := result.documents.map (·.id),
      created_at := now, relevance_score := result.confidence,
      memory_type := "short_term" }
  evictLoop
    { s with document_store := docStore, memory := OD.insert s.memory entryId e }

end ShortTermMemory

/-! ## Shared selection helpers -/

/-- Python `max(xs, key=...)` (first maximal element wins ties), `none` on an
empty list; also the head of a stable descending sort, which is proved
below. -/
def firstArgmaxBy (key : α → ℚ) : List α → Option α
  | [] => none
  | x :: t =>
    match firstArgmaxBy key t with
    | none => some x
    | some b => if key b > key x then some b else some x

/-- Stable descending sort by a rational key: the model of Python
`sorted(xs, key=..., reverse=True)` / `list.sort(key=..., reverse=True)`
(Python's sort is stable) and of SQL `ORDER BY ... DESC` (whose tie order is
unspecified; insertion order is the determinization used throughout). -/
def sortByKeyDesc (key : α → ℚ) (l : List α) : List α :=
  List.insertionSort (fun a b => key b ≤ key a) l

/-- Jaccard similarity of two keyword lists as computed in
`LongTermMemory._find_similar_queries`: `|A∩B| / |A∪B|`, `0.0` when the
union is empty. -/
def jaccardSim (a b : List PyStr) : ℚ :=
  let i := interCard a b
  let u := unionCard a b
  if u = 0 then 0 else (i : ℚ) / (u : ℚ)

/-! ## Long-term memory (`src/agentic-rag/memory/long_term.py`)

The four persisted relations become four lists of rows in insertion order;
SQL row selection becomes list filtering in table order. -/

/-- Database state of `LongTermMemory`: queries, documents, memory entries
and the memory↔document association rows. -/
structure LongTermMemory where
  queries : List Query := []
  documents : List Document := []
  entries : List MemoryEntry := []
  assoc : List (String × String) := []
deriving DecidableEq, Repr

namespace LongTermMemory

/-- Embeds `LongTermMemory._store_query`: insert unless the id exists. -/
def storeQuery (s : LongTermMemory) (q : Query) : LongTermMemory :=
  if s.queries.any (fun r => r.id = q.id) then s
  else { s with queries := s.queries ++ [q] }

/-- Embeds `LongTermMemory._store_document`: insert unless the id exists. -/
def storeDocument (s : LongTermMemory) (d : Document) : LongTermMemory :=
  if s.documents.any (fun r => r.id = d.id) then s
  else { s with documents := s.documents ++ [d] }

/-- Embeds `LongTermMemory._find_similar_queries`: Jaccard-score every
stored query against the incoming text, sort descending. -/
def findSimilarQueries (s : LongTermMemory) (txt : PyStr) :
    List (String × ℚ) :=
  let qk := pyset (pyWords (pyLower txt))
  let sims := s.queries.map
    (fun r => (r.id, jaccardSim qk (pyset (pyWords (pyLower r.text)))))
  sortByKeyDesc (·.2) sims

/-- Embeds `LongTermMemory._get_documents_for_memory`: the association rows
of the entry, resolved against the documents table in table order. -/
def documentsForMemory (s : LongTermMemory) (memory_id : String) :
    List Document :=
  let ids := (s.assoc.filter (fun p => p.1 = memory_id)).map (·.2)
  s.documents.filter (fun d => d.id ∈ ids)

/-- Embeds `LongTermMemory._update_memory_access`: bump the access counter
of one entry row. -/
def updateMemoryAccess (s : LongTermMemory) (memory_id : String) :
    LongTermMemory :=
  let bump := fun (e : MemoryEntry) =>
    if e.id = memory_id then { e with access_count := e.access_count + 1 }
    else e
  { s with entries := s.entries.map bump }

/-- Embeds `LongTermMemory.retrieve`: persist the incoming query, rank all
stored queries by Jaccard similarity, and on a sufficiently similar hit
return the documents of its highest-relevance memory entry.  Returns the
optional result with the post-state. -/
def retrieve (s : LongTermMemory) (q : Query) :
    Option AgentResult × LongTermMemory :=
  let s1 := s.storeQuery q
  match (s1.findSimilarQueries q.text).head? with
  | none => (none, s1)
  | some (best_query_id, highest_score) =>
    if highest_score < 7/10 then (none, s1)
    else
      match (sortByKeyDesc (·.relevance_score)
          (s1.entries.filter (fun e => e.query_id = best_query_id))).head? with
      | none => (none, s1)
      | some mem =>
        let s2 := s1.updateMemoryAccess mem.id
        let docs := s2.documentsForMemory mem.id
        if docs = [] then (none, s2)
        else
          (some { agent_id := "long_term_memory", agent_type := .MEMORY,
                  query_id := q.id, documents := docs,
                  confidence := highest_score }, s2)

/-- Embeds `LongTermMemory.store`: persist query and documents (skipping
duplicates by id), then append a new memory entry (with caller-supplied
fresh id and creation time) and its document associations. -/
def store (s : LongTermMemory) (q : Query) (result : AgentResult)
    (entryId : String) (now : ℚ) : LongTermMemory :=
  let s1 := s.storeQuery q
  let s2 := result.documents.foldl storeDocument s1
  let e : MemoryEntry :=
    { id := entryId, query_id := q.id,
      document_ids := result.documents.map (·.id),
      created_at := now, relevance_score := result.confidence,
      memory_type := "long_term" }
  { s2 with
      entries := s2.entries ++ [e],
      assoc := s2.assoc ++ e.document_ids.map (fun d => (entryId, d)) }

end LongTermMemory

/-! ## Memory coordinator (`src/agents/memory.py`)

The `memories` dictionary of `MemoryAgent` becomes an association list from
store name to a retrieval function, in insertion (enumeration) order.  The
coordinator claim only concerns which result `process` answers with, so a
store is abstracted to its pure `retrieve` behaviour on the given query. -/

/-- A configured memory store, abstracted to its retrieval behaviour. -/
abbrev MemStore := Query → Option AgentResult

/-- The empty `AgentResult` that `MemoryAgent.process` builds when no memory
component answers (`confidence = 0`, no documents). -/
def MemoryAgent.emptyResult (q : Query) : AgentResult :=
  { agent_id := "memory_agent", agent_type := .MEMORY, query_id := q.id,
    documents := [], confidence := 0 }

/-- Embeds the best-result loop of `MemoryAgent.process`: strict improvement
over a running best starting at confidence `0.0`, so the earliest store wins
ties and no result with confidence ≤ 0 is ever selected. -/
def MemoryAgent.bestLoop (memories : List (String × MemStore)) (q : Query) :
    Option AgentResult × ℚ :=
  memories.foldl
    (fun acc p =>
      match p.2 q with
      | none => acc
      | some r => if r.confidence > acc.2 then (some r, r.confidence) else acc)
    (none, 0)

/-- Embeds `MemoryAgent.process`: short-term first (answer at confidence
≥ 0.8), then long-term (≥ 0.7), then the best result over every configured
store, else an empty result. -/
def MemoryAgent.process (memories : List (String × MemStore)) (q : Query) :
    AgentResult :=
  if memories.isEmpty then MemoryAgent.emptyResult q
  else
    let shortHit :=
      match OD.find memories "short_term" with
      | some ρ =>
        match ρ q with
        | some r => if r.confidence ≥ 8/10 then some r else none
        | none => none
      | none => none
    match shortHit with
    | some r => r
    | none =>
      let longHit :=
        match OD.find memories "long_term" with
        | some ρ =>
          match ρ q with
          | some r => if r.confidence ≥ 7/10 then some r else none
          | none => none
        | none => none
      match longHit with
      | some r => r
      | none =>
        match (MemoryAgent.bestLoop memories q).1 with
        | some r => r
        | none => MemoryAgent.emptyResult q

/-! ## ReAct planner (`src/agentic-rag/planning/react.py`)

`available_agents : Dict[AgentType, BaseAgent]` is abstracted to the
availability predicate `AgentType → Bool` (only membership is read); the
fresh plan UUID becomes an explicit id parameter. -/

/-- Builds an f-string description `pre + query_text + post`. -/
def desc (pre : String) (txt : PyStr) (post : String) : PyStr :=
  pre.data ++ txt ++ post.data

/-- Planner state of `ReActPlanner.__init__` (the timeout is only logged and
never alters the produced plan). -/
structure ReActPlanner where
  max_steps : Int
deriving DecidableEq, Repr

namespace ReActPlanner

/-- Keyword set of `ReActPlanner._query_needs_search`. -/
def searchKeywords : List PyStr :=
  [pystr "search", pystr "find", pystr "look up", pystr "latest",
   pystr "recent", pystr "news", pystr "current", pystr "update",
   pystr "information about", pystr "data on"]

/-- Embeds `ReActPlanner._query_needs_search`: keyword scan that falls
through to a default of `True`. -/
def queryNeedsSearch (query_text : PyStr) : Bool :=
  let ql := pyLower query_text
  if searchKeywords.any (fun kw => containsSub kw ql) then true
  else true

/-- Keyword set of `ReActPlanner._query_needs_local_data`. -/
def localDataKeywords : List PyStr :=
  [pystr "local", pystr "file", pystr "document", pystr "internal",
   pystr "our", pystr "company", pystr "dataset", pystr "database",
   pystr "data", pystr "report", pystr "analysis"]

/-- Embeds `ReActPlanner._query_needs_local_data`. -/
def queryNeedsLocalData (query_text : PyStr) : Bool :=
  localDataKeywords.any (fun kw => containsSub kw (pyLower query_text))

/-- Keyword set of `ReActPlanner._query_needs_cloud`. -/
def cloudKeywords : List PyStr :=
  [pystr "cloud", pystr "aws", pystr "azure", pystr "s3", pystr "bucket",
   pystr "remote", pystr "service", pystr "api", pystr "endpoint",
   pystr "lambda", pystr "function", pystr "storage"]

/-- Embeds `ReActPlanner._query_needs_cloud`. -/
def queryNeedsCloud (query_text : PyStr) : Bool :=
  cloudKeywords.any (fun kw => containsSub kw (pyLower query_text))

/-- Embeds `ReActPlanner.create_plan`: fixed-shape plan (memory, optional
search/local/cloud by keyword predicates, aggregation when more than one
step, generation), truncated to `max_steps`. -/
def create_plan (p : ReActPlanner) (q : Query) (avail : AgentType → Bool)
    (planId : String) : Plan :=
  let plan : Plan := { id := planId, query_id := q.id, planner_type := "react" }
  let plan := if avail .MEMORY then
      plan.add_step .MEMORY (desc "Check memory for similar queries to '" q.text "'")
    else plan
  let plan := if queryNeedsSearch q.text && avail .SEARCH then
      plan.add_step .SEARCH
        (desc "Search external sources for information about '" q.text "'")
    else plan
  let plan := if queryNeedsLocalData q.text && avail .LOCAL_DATA then
      plan.add_step .LOCAL_DATA (desc "Retrieve relevant local data for '" q.text "'")
    else plan
  let plan := if queryNeedsCloud q.text && avail .CLOUD then
      plan.add_step .CLOUD
        (desc "Access cloud resources for information about '" q.text "'")
    else plan
  let plan := if avail .AGGREGATOR && plan.steps.length > 1 then
      plan.add_step .AGGREGATOR
        (pystr "Aggregate and synthesize information from previous steps")
    else plan
  let plan := if avail .GENERATIVE then
      plan.add_step .GENERATIVE (desc "Generate final response to '" q.text "'")
    else plan
  if (plan.steps.length : Int) > p.max_steps then
    { plan with steps := pySliceTo p.max_steps plan.steps }
  else plan

/-- Python `(local_data_index or search_index or 0)` over optional indices:
`None` and `0` are falsy. -/
def pyOrIdx (a b : Option ℕ) : ℕ :=
  match a with
  | some (n+1) => n+1
  | _ =>
    match b with
    | some (m+1) => m+1
    | _ => 0

/-- The step-insertion half of `ReActPlanner.adapt_plan` (the branch taken
when search returned no documents): insert a local-data step right after the
search step, then a cloud step after local-data/search. -/
def insertAlternativeSources (plan : Plan) (avail : AgentType → Bool) : Plan :=
  let currentTypes := plan.steps.map (·.agent_type)
  let plan :=
    if ¬ (.LOCAL_DATA ∈ currentTypes) && avail .LOCAL_DATA then
      match plan.steps.findIdx? (fun st => st.agent_type = .SEARCH) with
      | some i =>
        let localStep : PlanStep :=
          { agent_type := .LOCAL_DATA,
            description :=
              pystr "Retrieve relevant local data as search returned no results" }
        { plan with steps := pyInsert (i+1) localStep plan.steps }
      | none => plan
    else plan
  if ¬ (.CLOUD ∈ currentTypes) && avail .CLOUD then
    let localIdx := plan.steps.findIdx? (fun st => st.agent_type = .LOCAL_DATA)
    let searchIdx := plan.steps.findIdx? (fun st => st.agent_type = .SEARCH)
    let cloudStep : PlanStep :=
      { agent_type := .CLOUD,
        description :=
          pystr "Access cloud resources as alternative source of information" }
    { plan with
        steps := pyInsert (pyOrIdx localIdx searchIdx + 1) cloudStep plan.steps }
  else plan

/-- The `max_steps` truncation at the end of `ReActPlanner.adapt_plan`:
keep non-pending steps plus as many pending steps as fit. -/
def truncateAdapted (p : ReActPlanner) (plan : Plan) : Plan :=
  if (plan.steps.length : Int) > p.max_steps then
    let completedSteps := plan.steps.filter (fun st => st.status ≠ .pending)
    let pendingSteps := plan.steps.filter (fun st => st.status = .pending)
    let remainingSlots : Int := p.max_steps - completedSteps.length
    if remainingSlots > 0 then
      { plan with steps := completedSteps ++ pySliceTo remainingSlots pendingSteps }
    else
      { plan with steps := pySliceTo p.max_steps completedSteps }
  else plan

/-- Embeds `ReActPlanner.adapt_plan`.  On a high-confidence memory result a
fresh plan keeps only the pending non-retrieval steps (re-added as new
pending steps); otherwise, if search found nothing, alternative-source steps
are inserted, and the result is truncated to `max_steps`. -/
def adapt_plan (p : ReActPlanner) (plan : Plan) (results : List AgentResult)
    (avail : AgentType → Bool) (newPlanId : String) : Plan :=
  let memoryResults := results.filter (fun r => r.agent_type = .MEMORY)
  match memoryResults.head? with
  | some m0 =>
    if m0.confidence ≥ 8/10 then
      let newSteps := plan.steps.filter
        (fun st => ¬ (st.agent_type = .SEARCH ∨ st.agent_type = .LOCAL_DATA ∨
                      st.agent_type = .CLOUD) ∧ st.status = .pending)
      let newPlan : Plan :=
        { id := newPlanId, query_id := plan.query_id, planner_type := "react",
          status := .created }
      newSteps.foldl (fun pl st => pl.add_step st.agent_type st.description) newPlan
    else
      let searchResults := results.filter (fun r => r.agent_type = .SEARCH)
      let plan :=
        match searchResults.head? with
        | some s0 =>
          if s0.documents.isEmpty then insertAlternativeSources plan avail else plan
        | none => plan
      truncateAdapted p plan
  | none =>
    let searchResults := results.filter (fun r => r.agent_type = .SEARCH)
    let plan :=
      match searchResults.head? with
      | some s0 =>
        if s0.documents.isEmpty then insertAlternativeSources plan avail else plan
      | none => plan
    truncateAdapted p plan

end ReActPlanner

/-! ## Chain-of-Thought planner (`src/planning/cot.py`) -/

/-- Planner state of `ChainOfThoughtPlanner.__init__`. -/
structure ChainOfThoughtPlanner where
  max_depth : Int
deriving DecidableEq, Repr

/-- The information-need categories of `ChainOfThoughtPlanner._analyze_query`
(Python uses plain strings). -/
inductive InfoNeed where
  | factual | definitionNeed | comparison | dataNeed | recommendation | general
deriving DecidableEq, Repr

namespace ChainOfThoughtPlanner

/-- Embeds `ChainOfThoughtPlanner._analyze_query`: independent keyword
predicates producing a list of (need, description) pairs, with a `general`
fallback when nothing matched. -/
def analyzeQuery (query_text : PyStr) : List (InfoNeed × PyStr) :=
  let ql := pyLower query_text
  let hit := fun (kws : List String) =>
    kws.any (fun kw => containsSub (pystr kw) ql)
  let add := fun (c : Bool) (x : InfoNeed × PyStr) (acc : List (InfoNeed × PyStr)) =>
    if c then acc ++ [x] else acc
  let results : List (InfoNeed × PyStr) := []
  let results := add (hit ["who", "what", "when", "where", "how", "why"])
    (.factual, desc "Retrieve factual information about '" query_text "'") results
  let results := add (hit ["define", "explain", "mean", "definition"])
    (.definitionNeed,
      desc "Retrieve definition or explanation for concepts in '" query_text "'")
    results
  let results := add (hit ["compare", "difference", "versus", "vs"])
    (.comparison, desc "Compare entities mentioned in '" query_text "'") results
  let results := add (hit ["data", "statistic", "number", "percent", "figure"])
    (.dataNeed, desc "Retrieve data or statistics related to '" query_text "'")
    results
  let results := add (hit ["recommend", "suggestion", "best", "top"])
    (.recommendation, desc "Generate recommendations based on '" query_text "'")
    results
  if results.isEmpty then
    [(.general, desc "Search for general information about '" query_text "'")]
  else results

/-- Embeds `ChainOfThoughtPlanner._map_info_need_to_agent`: the preferred
agent if available, else a search fallback for everything but
recommendations. -/
def mapInfoNeedToAgent (need : InfoNeed) (avail : AgentType → Bool) :
    Option AgentType :=
  let preferred : AgentType :=
    match need with
    | .factual => .SEARCH
    | .definitionNeed => .SEARCH
    | .comparison => .SEARCH
    | .dataNeed => .LOCAL_DATA
    | .recommendation => .GENERATIVE
    | .general => .SEARCH
  if avail preferred then some preferred
  else if need ≠ .recommendation && avail .SEARCH then some .SEARCH
  else none

/-- Embeds `BasePlanner.validate_plan` (`src/agentic-rag/planning/base.py`):
every step's agent type must be available. -/
def validate_plan (plan : Plan) (avail : AgentType → Bool) : Bool :=
  plan.steps.all (fun st => avail st.agent_type)

/-- Embeds `ChainOfThoughtPlanner._create_simple_plan`: the minimal
memory/search/generative fallback plan. -/
def createSimplePlan (q : Query) (avail : AgentType → Bool)
    (planId : String) : Plan :=
  let plan : Plan := { id := planId, query_id := q.id, planner_type := "cot" }
  let plan := if avail .MEMORY then
      plan.add_step .MEMORY (desc "Check memory for '" q.text "'")
    else plan
  let plan := if avail .SEARCH then
      plan.add_step .SEARCH (desc "Search for information about '" q.text "'")
    else plan
  if avail .GENERATIVE then
    plan.add_step .GENERATIVE (desc "Generate response to '" q.text "'")
  else plan

/-- Embeds `ChainOfThoughtPlanner.create_plan`: memory check, one step per
resolved information need, optional aggregation and generation, with a
fallback to the simple plan when validation fails.  No truncation bounds the
step count. -/
def create_plan (q : Query) (avail : AgentType → Bool)
    (planId fallbackId : String) : Plan :=
  let queryAnalysis := analyzeQuery q.text
  let plan : Plan := { id := planId, query_id := q.id, planner_type := "cot" }
  let plan := if avail .MEMORY then
      plan.add_step .MEMORY
        (desc "Retrieve relevant prior knowledge about '" q.text "'")
    else plan
  let plan := queryAnalysis.foldl
    (fun pl x =>
      match mapInfoNeedToAgent x.1 avail with
      | some t => pl.add_step t x.2
      | none => pl)
    plan
  let plan := if queryAnalysis.length > 1 && avail .AGGREGATOR then
      plan.add_step .AGGREGATOR
        (pystr "Synthesize information from multiple sources")
    else plan
  let plan := if avail .GENERATIVE then
      plan.add_step .GENERATIVE
        (desc "Generate comprehensive response to '" q.text "'")
    else plan
  if ¬ validate_plan plan avail then createSimplePlan q avail fallbackId
  else plan

/-- Embeds `ChainOfThoughtPlanner._has_sufficient_information`: any result
with confidence ≥ 0.8, or results from at least two distinct agent types. -/
def hasSufficientInformation (results : List AgentResult) : Bool :=
  if results.any (fun r => r.confidence ≥ 8/10) then true
  else (results.map (·.agent_type)).dedup.length ≥ 2

/-- Embeds `ChainOfThoughtPlanner._identify_missing_information`: recover the
query text from the first matching result's metadata, then suggest a general
search (only memory tried) or a local-data check (only low-confidence
search tried). -/
def identifyMissingInformation (results : List AgentResult) (query_id : String) :
    List (InfoNeed × PyStr) :=
  if results.isEmpty then []
  else
    let queryText : PyStr :=
      match results.find? (fun r => r.query_id = query_id) with
      | some r => r.metaQueryText
      | none => []
    if queryText.isEmpty then []
    else
      let agentTypes := (results.map (·.agent_type)).dedup
      let missing : List (InfoNeed × PyStr) := []
      let missing := if agentTypes = [.MEMORY] then
          missing ++ [(.general,
            desc "Search for external information about '" queryText "'")]
        else missing
      if agentTypes = [.SEARCH] &&
          results.any (fun r => r.confidence < 6/10) then
        missing ++ [(.dataNeed,
          desc "Check local data sources for information about '" queryText "'")]
      else missing

/-- Fresh copy of a step as built in `ChainOfThoughtPlanner.adapt_plan` (all
observable fields are carried over; ids are not modelled). -/
def copyStep (st : PlanStep) : PlanStep :=
  { agent_type := st.agent_type, description := st.description,
    status := st.status, result := st.result }

/-- Embeds `ChainOfThoughtPlanner.adapt_plan`: when information is
sufficient, keep the non-pending steps and close with aggregation and
generation; when information is missing, copy the whole plan and append the
missing-need steps; otherwise return the plan unchanged. -/
def adapt_plan (plan : Plan) (results : List AgentResult)
    (avail : AgentType → Bool) (newPlanId : String) : Plan :=
  if hasSufficientInformation results then
    let newPlan : Plan :=
      { id := newPlanId, query_id := plan.query_id, planner_type := "cot",
        status := .created }
    let newPlan := { newPlan with
      steps := (plan.steps.filter (fun st => st.status ≠ .pending)).map copyStep }
    let newPlan := if avail .AGGREGATOR then
        newPlan.add_step .AGGREGATOR (pystr "Synthesize gathered information")
      else newPlan
    if avail .GENERATIVE then
      newPlan.add_step .GENERATIVE (pystr "Generate final response")
    else newPlan
  else
    let missingInfo := identifyMissingInformation results plan.query_id
    if ¬ missingInfo.isEmpty then
      let newPlan : Plan :=
        { id := newPlanId, query_id := plan.query_id, planner_type := "cot",
          status := .created }
      let newPlan := { newPlan with steps := plan.steps.map copyStep }
      missingInfo.foldl
        (fun pl x =>
          match mapInfoNeedToAgent x.1 avail with
          | some t => pl.add_step t x.2
          | none => pl)
        newPlan
    else plan

end ChainOfThoughtPlanner

/-! ## Aggregator (`src/agents/aggregator.py`)

The timeout only logs and sets a metadata flag, so it is not modelled; the
fresh UUID of the synthesized summary document is modelled as an empty id;
`set(...)` iteration (whose order Python leaves unspecified) is determinized
to first-occurrence order. -/

/-- Aggregator configuration from `AggregatorAgent.__init__`. -/
structure AggregatorAgent where
  max_agents : Int
deriving DecidableEq, Repr

namespace AggregatorAgent

/-- The content signature used by `_deduplicate_documents`: the first 100
characters. -/
def sig (d : Document) : PyStr := d.content.take 100

/-- The scan of `_deduplicate_documents` with its running `seen_content`
set. -/
def dedupGo (seen : List PyStr) : List Document → List Document
  | [] => []
  | d :: rest =>
    if sig d ∈ seen then dedupGo seen rest
    else d :: dedupGo (sig d :: seen) rest

/-- Embeds `AggregatorAgent._deduplicate_documents`: keep the first document
for each first-100-characters signature, in order. -/
def deduplicateDocuments (documents : List Document) : List Document :=
  dedupGo [] documents

/-- Python `max(r.confidence for r in results)` on a non-empty list (the
empty case, unreachable in the callers, yields 0). -/
def maxConfOf (results : List AgentResult) : ℚ :=
  match results.map (·.confidence) with
  | [] => 0
  | x :: t => t.foldl max x

/-- Embeds `_aggregate_search_results` / `_aggregate_local_data_results` /
`_aggregate_cloud_results` (the three are textually identical): concatenate
the documents, stable-sort by the `relevance` metadata key descending, keep
the top 10, and pair with the maximal confidence. -/
def aggregateTypeResults (results : List AgentResult) :
    List Document × ℚ :=
  let documents := results.foldl (fun acc r => acc ++ r.documents) []
  let documents := sortByKeyDesc Document.relevance documents
  (documents.take 10, maxConfOf results)

/-- Python `content.split(".")` (keeps empty pieces; never empty). -/
def splitOnDotAux : PyStr → PyStr → List PyStr
  | cur, [] => [cur.reverse]
  | cur, c :: rest =>
    if c = '.' then cur.reverse :: splitOnDotAux [] rest
    else splitOnDotAux (c :: cur) rest

/-- First sentence of a document as computed in `_create_summary_document`:
`content.split(".")[0] + "."`. -/
def firstSentence (content : PyStr) : PyStr :=
  (splitOnDotAux [] content).headD [] ++ pystr "."

/-- Embeds `AggregatorAgent._create_summary_document`. -/
def createSummaryDocument (q : Query) (documents : List Document) : Document :=
  let sources := (documents.map (·.source)).dedup
  let sourcesStr :=
    String.intercalate ", " (sources.take 5) ++
      (if sources.length > 5 then
        ", and " ++ toString (sources.length - 5) ++ " more"
      else "")
  let header :=
    pystr "Summary of information for query: '" ++ q.text ++ pystr "'\n\n" ++
    pystr ("Found " ++ toString documents.length ++
      " relevant documents from " ++ toString sources.length ++ " sources ") ++
    pystr ("(" ++ sourcesStr ++ ").\n\n")
  let body := (documents.take 3).enum.foldl
    (fun acc x =>
      acc ++ pystr ("Document " ++ toString (x.1 + 1) ++ ": ") ++
        firstSentence x.2.content ++ pystr "\n")
    []
  { id := "", content := header ++ body, source := "aggregator_summary" }

/-- The merge phase of `AggregatorAgent.aggregate` on a non-empty input:
cap to the `max_agents` most confident results, take a high-confidence
memory result's documents directly if one exists, otherwise collect
search/local-data/cloud documents per source type; returns the merged
document list (pre-deduplication) and the per-source confidence scores. -/
def mergePhase (a : AggregatorAgent) (results : List AgentResult) :
    List Document × List (String × ℚ) :=
  let results :=
    if (results.length : Int) > a.max_agents then
      pySliceTo a.max_agents (sortByKeyDesc (·.confidence) results)
    else results
  let memoryResults := results.filter (fun r => r.agent_type = .MEMORY)
  let acc :=
    match firstArgmaxBy (·.confidence) memoryResults with
    | some best =>
      if best.confidence ≥ 8/10 then
        (best.documents, [(("memory" : String), best.confidence)])
      else (([] : List Document), ([] : List (String × ℚ)))
    | none => ([], [])
  if acc.1.isEmpty then
    let step := fun (acc : List Document × List (String × ℚ))
        (t : AgentType) (name : String) =>
      let rs := results.filter (fun r => r.agent_type = t)
      if rs.isEmpty then acc
      else
        let (docs, conf) := aggregateTypeResults rs
        (acc.1 ++ docs, acc.2 ++ [(name, conf)])
    step (step (step acc .SEARCH "search") .LOCAL_DATA "local_data")
      .CLOUD "cloud"
  else acc

/-- Embeds `AggregatorAgent.aggregate`: empty input gives an empty
zero-confidence result; otherwise merge, deduplicate, prepend a summary
document when any document survived, and average the per-source confidence
scores. -/
def aggregate (a : AggregatorAgent) (q : Query) (results : List AgentResult) :
    AgentResult :=
  if results.isEmpty then
    { agent_id := "aggregator", agent_type := .AGGREGATOR, query_id := q.id,
      documents := [], confidence := 0 }
  else
    let mc := a.mergePhase results
    let deduped := deduplicateDocuments mc.1
    let finalDocs :=
      if deduped.isEmpty then deduped
      else createSummaryDocument q deduped :: deduped
    let overall : ℚ :=
      if mc.2.isEmpty then 0
      else (mc.2.map (·.2)).sum / (mc.2.length : ℚ)
    { agent_id := "aggregator", agent_type := .AGGREGATOR, query_id := q.id,
      documents := finalDocs, confidence := overall }

end AggregatorAgent

/-! ## Plan execution engine and orchestrator (`src/app.py`, lines 245–315)

`self.agents` becomes a partial map from agent type to a `process` function
that may raise (`Except Unit`); the generative collaborator's
`generate_response` and the memory stores are external collaborators (spec
§6) abstracted to functions/names.  The step state setters (`step.start`,
`step.complete(result)`, `step.fail`, `plan.start_execution`,
`plan.complete`, `plan.fail`) are modelled from the spec (§4.5): forward
transitions `pending → in_progress → completed/failed`, the result recorded
only on completion. -/

/-- An available agent's `process`, which may raise. -/
abbrev AgentProc := Query → Except Unit AgentResult

/-- One iteration of the step loop in `AgenticRag.process_query`: an
unavailable agent fails the step without any invocation; otherwise the step
is started and either completed with the agent's result or failed when the
agent raises. -/
def executeStep (agents : AgentType → Option AgentProc) (q : Query)
    (st : PlanStep) : PlanStep × Option AgentResult :=
  match agents st.agent_type with
  | some proc =>
    let st := { st with status := .in_progress }
    match proc q with
    | .ok r => ({ st with status := .completed, result := some r }, some r)
    | .error _ => ({ st with status := .failed }, none)
  | none => ({ st with status := .failed }, none)

/-- The step loop of `AgenticRag.process_query`: visit every step in order,
collecting the results of the completed ones. -/
def execSteps (agents : AgentType → Option AgentProc) (q : Query) :
    List PlanStep → List PlanStep × List AgentResult
  | [] => ([], [])
  | st :: rest =>
    let x := executeStep agents q st
    let ys := execSteps agents q rest
    (x.1 :: ys.1,
      match x.2 with
      | some r => r :: ys.2
      | none => ys.2)

/-- Embeds plan execution in `AgenticRag.process_query`: start execution,
run every step, then complete the plan iff every step completed, else fail
it. -/
def executePlan (agents : AgentType → Option AgentProc) (q : Query)
    (plan : Plan) : Plan × List AgentResult :=
  let plan := { plan with status := .executing }
  let sr := execSteps agents q plan.steps
  let status :=
    if sr.1.all (fun st => st.status = .completed) then PlanStatus.completed
    else PlanStatus.failed
  ({ plan with steps := sr.1, status := status }, sr.2)

/-- Configuration of the orchestrator's planning/execution path: the agent
map, the aggregator configuration used by the aggregator agent, the
generative collaborator's `generate_response` (external, spec §6), the
ReAct planner (the default planner chosen by `process_query`), and the
names of the configured memory stores in enumeration order. -/
structure RagPipeline where
  agents : AgentType → Option AgentProc
  aggregatorCfg : AggregatorAgent
  generateResponse : Query → AgentResult → AgentResult
  reactCfg : ReActPlanner
  memories : List String

/-- Embeds `AgenticRag.process_query` from plan creation to the memory
write-back (lines 245–315): create a ReAct plan, execute it, aggregate the
collected results (or fall back to the best single result), generate the
final answer, and issue a `store(query, final_result)` call to every
configured memory store when the final result's confidence is at least 0.5.
Returns the executed plan, the collected results, the aggregated and final
results, and the issued store calls. -/
def processQueryPlanPath (cfg : RagPipeline) (q : Query) (planId : String) :
    Plan × List AgentResult × Option AgentResult × Option AgentResult ×
      List (String × Query × AgentResult) :=
  let avail := fun t => (cfg.agents t).isSome
  let plan := cfg.reactCfg.create_plan q avail planId
  let ep := executePlan cfg.agents q plan
  let plan2 := ep.1
  let results := ep.2
  let aggregated : Option AgentResult :=
    if avail .AGGREGATOR && ¬ results.isEmpty then
      some (cfg.aggregatorCfg.aggregate q results)
    else firstArgmaxBy (·.confidence) results
  let finalResult : Option AgentResult :=
    if avail .GENERATIVE then
      match aggregated with
      | some ar => some (cfg.generateResponse q ar)
      | none => none
    else aggregated
  let storeCalls : List (String × Query × AgentResult) :=
    match finalResult with
    | some r =>
      if r.confidence ≥ 1/2 then cfg.memories.map (fun n => (n, q, r))
      else []
    | none => []
  (plan2, results, aggregated, finalResult, storeCalls)

/-! ## Spec-side definitions for the refinement claims

These two definitions follow the wording of the spec/claims (selection as a
first argmax rather than the code's sort-then-head / running-best loop);
the theorems below prove them equal to the source-translated functions. -/

/-- Spec-side reading of long-term `retrieve` (spec §4.2): persist the
incoming query first (idempotent on id); compute Jaccard similarity between
the incoming query's keyword set and every stored query's keyword set; pick
the highest-scoring stored query; below 0.7 return empty; otherwise answer
from the memory entry with the highest `relevance_score` tied to that
stored query, with `confidence = similarity score`. -/
def LongTermMemory.retrieveClaim (s : LongTermMemory) (q : Query) :
    Option AgentResult × LongTermMemory :=
  let s1 :=
    if s.queries.any (fun r => r.id = q.id) then s
    else { s with queries := s.queries ++ [q] }
  let qk := pyset (pyWords (pyLower q.text))
  let sims := s1.queries.map
    (fun r => (r.id, jaccardSim qk (pyset (pyWords (pyLower r.text)))))
  match firstArgmaxBy (·.2) sims with
  | none => (none, s1)
  | some (best_query_id, highest_score) =>
    if highest_score < 7/10 then (none, s1)
    else
      match firstArgmaxBy (·.relevance_score)
          (s1.entries.filter (fun e => e.query_id = best_query_id)) with
      | none => (none, s1)
      | some mem =>
        let s2 := s1.updateMemoryAccess mem.id
        let docs := s2.documentsForMemory mem.id
        if docs = [] then (none, s2)
        else
          (some { agent_id := "long_term_memory", agent_type := .MEMORY,
                  query_id := q.id, documents := docs,
                  confidence := highest_score }, s2)

/-- Spec-side reading of the memory coordinator (spec §4.3, as amended):
short-term at confidence ≥ 0.8 first, then long-term at ≥ 0.7, then the
best-confidence result with positive confidence over all configured stores
(ties broken by store enumeration order), else an empty result with
confidence 0. -/
def MemoryAgent.processClaim (memories : List (String × MemStore))
    (q : Query) : AgentResult :=
  let shortHit :=
    match OD.find memories "short_term" with
    | some ρ =>
      match ρ q with
      | some r => if r.confidence ≥ 8/10 then some r else none
      | none => none
    | none => none
  match shortHit with
  | some r => r
  | none =>
    let longHit :=
      match OD.find memories "long_term" with
      | some ρ =>
        match ρ q with
        | some r => if r.confidence ≥ 7/10 then some r else none
        | none => none
      | none => none
    match longHit with
    | some r => r
    | none =>
      let hits := memories.filterMap (fun p => p.2 q)
      match firstArgmaxBy (·.confidence)
          (hits.filter (fun r => r.confidence > 0)) with
      | some r => r
      | none => MemoryAgent.emptyResult q

/-! ## Helper lemmas -/

/-- A step copy in the Chain-of-Thought adapt carries every modelled field,
so it is the identity. -/
theorem copyStep_eq (st : PlanStep) : ChainOfThoughtPlanner.copyStep st = st := rfl

/-- Adding a step appends it. -/
theorem add_step_steps (p : Plan) (t : AgentType) (d : PyStr) :
    (p.add_step t d).steps = p.steps ++ [{ agent_type := t, description := d }] :=
  rfl

/-- Membership in a plan's steps survives `add_step`. -/
theorem mem_add_step {st : PlanStep} {p : Plan} (h : st ∈ p.steps)
    (t : AgentType) (d : PyStr) : st ∈ (p.add_step t d).steps := by
  simp [add_step_steps]
  exact Or.inl h

/-- Head of an ordered insert for the descending-by-key relation. -/
theorem head_orderedInsert (key : α → ℚ) (x : α) (l : List α) :
    (List.orderedInsert (fun a b => key b ≤ key a) x l).head? =
      match l.head? with
      | none => some x
      | some b => if key b ≤ key x then some x else some b := by
  cases l with
  | nil => rfl
  | cons b t =>
    simp only [List.orderedInsert, List.head?_cons]
    split_ifs <;> simp

/-- The head of the stable descending sort is the earliest maximal
element. -/
theorem head_sortByKeyDesc (key : α → ℚ) (l : List α) :
    (sortByKeyDesc key l).head? = firstArgmaxBy key l := by
  induction l with
  | nil => rfl
  | cons x t ih =>
    rw [sortByKeyDesc, List.insertionSort, ← sortByKeyDesc, head_orderedInsert,
      ih, firstArgmaxBy]
    cases h : firstArgmaxBy key t with
    | none => rfl
    | some b =>
      by_cases hle : key b ≤ key x
      · simp [hle, not_lt.mpr hle]
      · simp [hle, lt_of_not_le hle]

/-- The first argmax is `none` exactly on the empty list. -/
theorem firstArgmaxBy_eq_none (key : α → ℚ) (l : List α) :
    firstArgmaxBy key l = none ↔ l = [] := by
  cases l with
  | nil => simp [firstArgmaxBy]
  | cons x t =>
    constructor
    · intro h
      exfalso
      simp only [firstArgmaxBy] at h
      cases hb : firstArgmaxBy key t <;> rw [hb] at h
      · exact Option.noConfusion h
      · split at h
        all_goals first
          | exact Option.noConfusion h
          | (split at h <;> exact Option.noConfusion h)
    · intro h
      exact absurd h (List.cons_ne_nil x t)

/-- First argmax over a strictly-above-threshold filter. -/
theorem firstArgmaxBy_filter_gt (key : α → ℚ) (c : ℚ) (l : List α) :
    firstArgmaxBy key (l.filter (fun x => key x > c)) =
      match firstArgmaxBy key l with
      | none => none
      | some m => if key m > c then some m else none := by
  induction l with
  | nil => rfl
  | cons x t ih =>
    simp only [List.filter_cons]
    cases h : firstArgmaxBy key t with
    | none =>
      have ht0 : t = [] := (firstArgmaxBy_eq_none key t).mp h
      subst ht0
      by_cases hx : key x > c
      · simp [hx, firstArgmaxBy, h]
      · simp [hx, firstArgmaxBy, h, ih]
    | some m =>
      rw [h] at ih
      by_cases hx : key x > c
      · simp only [hx, decide_True, if_true, firstArgmaxBy, ih, h]
        by_cases hm : key m > c
        · simp only [hm, if_true]
          by_cases hmx : key m > key x
          · simp [hmx, gt_trans hmx hx, hm]
          · simp [hmx, hx]
        · simp only [hm, if_false]
          have hmx : ¬ key m > key x := fun hgt => hm (gt_trans hgt hx)
          simp [hmx, hx]
      · simp only [hx, decide_False, Bool.false_eq_true, if_false, ih,
          firstArgmaxBy, h]
        by_cases hm : key m > c
        · have hmx : key m > key x := lt_of_le_of_lt (not_lt.mp hx) hm
          simp [hm, hmx]
        · simp only [hm, if_false]
          by_cases hmx : key m > key x
          · simp [hmx, hm]
          · simp only [hmx, if_false]
            have : ¬ key x > c := hx
            simp [hx, hm]

/-- The running-best fold of the coordinator only depends on the stores'
hits. -/
theorem bestLoop_foldl_filterMap (q : Query) :
    ∀ (memories : List (String × MemStore)) (acc : Option AgentResult × ℚ),
    memories.foldl
      (fun acc p =>
        match p.2 q with
        | none => acc
        | some r =>
          if r.confidence > acc.2 then (some r, r.confidence) else acc)
      acc =
    (memories.filterMap (fun p => p.2 q)).foldl
      (fun acc r =>
        if r.confidence > acc.2 then (some r, r.confidence) else acc)
      acc := by
  intro memories
  induction memories with
  | nil => intro acc; rfl
  | cons p t ih =>
    intro acc
    simp only [List.foldl_cons, List.filterMap_cons]
    cases h : p.2 q with
    | none => simp [ih]
    | some r => simp [ih]

/-- The running-best fold computes the first argmax over the hits that beat
the starting confidence. -/
theorem hitsFold_eq_firstArgmax :
    ∀ (l : List AgentResult) (r0 : Option AgentResult) (c : ℚ),
    l.foldl
      (fun acc r =>
        if r.confidence > acc.2 then (some r, r.confidence) else acc)
      (r0, c) =
      match firstArgmaxBy (fun r => r.confidence)
          (l.filter (fun r => r.confidence > c)) with
      | none => (r0, c)
      | some m => (some m, m.confidence) := by
  intro l
  induction l with
  | nil => intro r0 c; rfl
  | cons r t ih =>
    intro r0 c
    simp only [List.foldl_cons, List.filter_cons]
    by_cases hc : r.confidence > c
    · rw [if_pos hc, ih (some r) r.confidence]
      simp only [hc, decide_True, if_true]
      simp only [firstArgmaxBy]
      rw [firstArgmaxBy_filter_gt, firstArgmaxBy_filter_gt]
      cases hm : firstArgmaxBy (fun r => r.confidence) t with
      | none =>
        have ht : t = [] := (firstArgmaxBy_eq_none _ t).mp hm
        subst ht
        simp [firstArgmaxBy] at hm ⊢
      | some m =>
        by_cases hmr : m.confidence > r.confidence
        · have hmc : m.confidence > c := gt_trans hmr hc
          simp [hmr, hmc]
        · by_cases hmc : m.confidence > c
          · simp [hmr, hmc]
          · simp [hmr, hmc]
    · rw [if_neg hc, ih r0 c]
      simp [hc]

/-- The coordinator's fallback scan returns the first positive-confidence
argmax over all hits. -/
theorem bestLoop_fst (memories : List (String × MemStore)) (q : Query) :
    (MemoryAgent.bestLoop memories q).1 =
      firstArgmaxBy (fun r => r.confidence)
        ((memories.filterMap (fun p => p.2 q)).filter
          (fun r => r.confidence > 0)) := by
  unfold MemoryAgent.bestLoop
  rw [bestLoop_foldl_filterMap, hitsFold_eq_firstArgmax]
  cases firstArgmaxBy (fun r => r.confidence)
      ((memories.filterMap (fun p => p.2 q)).filter
        (fun r => r.confidence > 0)) <;> rfl

/-! ## C7: memory coordinator precedence -/

/-- C7 (amended): for every query, the Memory Coordinator's `process`
returns the short-term result if its confidence ≥ 0.8; otherwise the
long-term result if its confidence ≥ 0.7; otherwise the best result with
positive confidence over all configured stores, ties broken by store
enumeration order; otherwise an empty `AgentResult` with confidence 0. -/
theorem memory_coordinator_precedence (memories : List (String × MemStore))
    (q : Query) :
    MemoryAgent.process memories q = MemoryAgent.processClaim memories q := by
  unfold MemoryAgent.process MemoryAgent.processClaim
  cases memories with
  | nil => simp [OD.find, MemoryAgent.bestLoop, firstArgmaxBy]
  | cons p t =>
    simp only [List.isEmpty_cons, Bool.false_eq_true, if_false]
    rw [bestLoop_fst]

/-- C7 counterexample for the claim as stated: a configured store that does
return a result (confidence 0, one document) is ignored by the running-best
scan, and `process` answers with its own empty result instead of "the
best-confidence result over all configured stores". -/
theorem memory_coordinator_drops_zero_confidence :
    (MemoryAgent.process
        [("x", fun _ => some
          { agent_id := "store_x", agent_type := .MEMORY, query_id := "q",
            documents := [{ id := "d", content := pystr "c", source := "s" }],
            confidence := 0 })]
        { id := "q", text := pystr "t" }).documents = [] ∧
      MemoryAgent.process
        [("x", fun _ => some
          { agent_id := "store_x", agent_type := .MEMORY, query_id := "q",
            documents := [{ id := "d", content := pystr "c", source := "s" }],
            confidence := 0 })]
        { id := "q", text := pystr "t" } ≠
        { agent_id := "store_x", agent_type := .MEMORY, query_id := "q",
          documents := [{ id := "d", content := pystr "c", source := "s" }],
          confidence := 0 } := by
  norm_num +decide [MemoryAgent.process, MemoryAgent.emptyResult,
    MemoryAgent.bestLoop, OD.find]

/-! ## C4: long-term memory retrieval -/

/-- C4: long-term `retrieve` persists the incoming query first (skipping an
existing id), Jaccard-scores every stored query's keyword set against the
incoming one, picks the highest-scoring stored query (earliest on ties);
below similarity 0.7 it returns empty, and otherwise answers from the
memory entry with the highest `relevance_score` tied to that stored query,
bumping its access count, with `confidence` equal to the similarity score
(still empty if no entry or no resolvable document exists).  Stated as
equality with the spec-worded `retrieveClaim`. -/
theorem long_term_retrieve_follows_spec (s : LongTermMemory) (q : Query) :
    s.retrieve q = s.retrieveClaim q := by
  unfold LongTermMemory.retrieve LongTermMemory.retrieveClaim
    LongTermMemory.findSimilarQueries LongTermMemory.storeQuery
  simp only [head_sortByKeyDesc]

/-! ## C8: execution tolerates per-step failure -/

/-- The step loop processes every step independently in order. -/
theorem execSteps_fst (agents : AgentType → Option AgentProc) (q : Query) :
    ∀ steps : List PlanStep,
    (execSteps agents q steps).1 =
      steps.map (fun st => (executeStep agents q st).1) := by
  intro steps
  induction steps with
  | nil => rfl
  | cons st rest ih => simp [execSteps, ih]

/-- Executing a step always lands it in `completed` or `failed`. -/
theorem executeStep_status (agents : AgentType → Option AgentProc) (q : Query)
    (st : PlanStep) :
    (executeStep agents q st).1.status = .completed ∨
      (executeStep agents q st).1.status = .failed := by
  unfold executeStep
  cases hA : agents st.agent_type with
  | none => simp
  | some proc =>
    cases hp : proc q with
    | ok r => simp [hp]
    | error e => simp [hp]

/-- The collected results are exactly the completed steps' recorded results,
in step order. -/
theorem execSteps_results (agents : AgentType → Option AgentProc) (q : Query) :
    ∀ steps : List PlanStep,
    (execSteps agents q steps).2 =
      (execSteps agents q steps).1.filterMap
        (fun st => if st.status = .completed then st.result else none) := by
  intro steps
  induction steps with
  | nil => rfl
  | cons st rest ih =>
    simp only [execSteps]
    unfold executeStep
    cases hA : agents st.agent_type with
    | none => simpa using ih
    | some proc =>
      cases hp : proc q with
      | ok r => simp [hp]; simpa using ih
      | error e => simp [hp]; simpa using ih

/-- C8: after all steps are visited the plan is `completed` iff every step
completed (else `failed`); every step is visited and ends `completed` or
`failed` (an unavailable or throwing agent fails its step without aborting
the rest); the completed steps' results are collected in order and are
exactly what aggregation receives on the planning path. -/
theorem plan_failure_tolerance (agents : AgentType → Option AgentProc)
    (q : Query) (plan : Plan) :
    ((executePlan agents q plan).1.status = .completed ↔
      ∀ st ∈ (executePlan agents q plan).1.steps, st.status = .completed) ∧
    (executePlan agents q plan).1.steps.length = plan.steps.length ∧
    (∀ st ∈ (executePlan agents q plan).1.steps,
      st.status = .completed ∨ st.status = .failed) ∧
    (executePlan agents q plan).2 =
      (executePlan agents q plan).1.steps.filterMap
        (fun st => if st.status = .completed then st.result else none) ∧
    (∀ cfg : RagPipeline, ∀ planId : String,
      (cfg.agents AgentType.AGGREGATOR).isSome = true →
      (processQueryPlanPath cfg q planId).2.1 ≠ [] →
      (processQueryPlanPath cfg q planId).2.2.1 =
        some (cfg.aggregatorCfg.aggregate q
          (processQueryPlanPath cfg q planId).2.1)) := by
  refine ⟨?_, ?_, ?_, ?_, ?_⟩
  · simp only [executePlan]
    by_cases hall :
        (execSteps agents q plan.steps).1.all (fun st => st.status = .completed)
    · simp only [hall, if_true]
      constructor
      · intro _ st hst
        have := (List.all_eq_true.mp hall) st hst
        simpa using this
      · intro _; trivial
    · simp only [hall, Bool.false_eq_true, if_false]
      constructor
      · intro h; exact absurd h (by simp)
      · intro h
        exfalso
        exact hall (List.all_eq_true.mpr (fun st hst => by simpa using h st hst))
  · simp [executePlan, execSteps_fst]
  · intro st hst
    simp only [executePlan, execSteps_fst, List.mem_map] at hst
    obtain ⟨st0, _, rfl⟩ := hst
    exact executeStep_status agents q st0
  · simp only [executePlan]
    exact execSteps_results agents q plan.steps
  · intro cfg planId hagg hres
    simp only [processQueryPlanPath] at hres ⊢
    have : ((cfg.agents AgentType.AGGREGATOR).isSome &&
        !(executePlan cfg.agents q
          (cfg.reactCfg.create_plan q (fun t => (cfg.agents t).isSome)
            planId)).2.isEmpty) = true := by
      simp [hagg, List.isEmpty_iff, hres]
    simp [this]
    intro h
    exact absurd (h hagg) hres

/-! ## C5: memory write-back of the final result -/

/-- C5 (amended): on the planning/execution path the final result is stored
back into every configured memory store exactly when it exists and its
confidence is at least 0.5; otherwise no store receives a call. -/
theorem write_back_both_tiers (cfg : RagPipeline) (q : Query)
    (planId : String) :
    (∀ r, (processQueryPlanPath cfg q planId).2.2.2.1 = some r →
      1/2 ≤ r.confidence →
      (processQueryPlanPath cfg q planId).2.2.2.2 =
        cfg.memories.map (fun n => (n, q, r))) ∧
    (∀ r, (processQueryPlanPath cfg q planId).2.2.2.1 = some r →
      r.confidence < 1/2 →
      (processQueryPlanPath cfg q planId).2.2.2.2 = []) ∧
    ((processQueryPlanPath cfg q planId).2.2.2.1 = none →
      (processQueryPlanPath cfg q planId).2.2.2.2 = []) := by
  refine ⟨?_, ?_, ?_⟩
  · intro r hfin hconf
    simp only [processQueryPlanPath] at hfin ⊢
    simp only [hfin]
    rw [if_pos (ge_iff_le.mpr hconf)]
  · intro r hfin hconf
    simp only [processQueryPlanPath] at hfin ⊢
    simp only [hfin]
    rw [if_neg (fun hge => absurd (ge_iff_le.mp hge) (not_le.mpr hconf))]
  · intro hfin
    simp only [processQueryPlanPath] at hfin ⊢
    simp only [hfin]

/-- C5 counterexample for the claim as stated: a run of the
planning/execution path that produces a final answer with confidence 0.3
issues no `store` call at all, although both memory tiers are configured. -/
theorem write_back_skipped_low_confidence :
    (processQueryPlanPath
      { agents := fun t =>
          match t with
          | .SEARCH => some (fun _ => .ok
              { agent_id := "search", agent_type := .SEARCH, query_id := "q",
                documents := [{ id := "d", content := pystr "c", source := "s" }],
                confidence := 2/10 })
          | .GENERATIVE => some (fun _ => .ok
              { agent_id := "gen", agent_type := .GENERATIVE, query_id := "q",
                documents := [], confidence := 1/10 })
          | _ => none,
        aggregatorCfg := { max_agents := 5 },
        generateResponse := fun _ _ =>
          { agent_id := "gen", agent_type := .GENERATIVE, query_id := "q",
            documents := [{ id := "a", content := pystr "ans", source := "g" }],
            confidence := 3/10 },
        reactCfg := { max_steps := 10 },
        memories := ["short_term", "long_term"] }
      { id := "q", text := pystr "x" } "p").2.2.2.2 = [] ∧
    ((processQueryPlanPath
      { agents := fun t =>
          match t with
          | .SEARCH => some (fun _ => .ok
              { agent_id := "search", agent_type := .SEARCH, query_id := "q",
                documents := [{ id := "d", content := pystr "c", source := "s" }],
                confidence := 2/10 })
          | .GENERATIVE => some (fun _ => .ok
              { agent_id := "gen", agent_type := .GENERATIVE, query_id := "q",
                documents := [], confidence := 1/10 })
          | _ => none,
        aggregatorCfg := { max_agents := 5 },
        generateResponse := fun _ _ =>
          { agent_id := "gen", agent_type := .GENERATIVE, query_id := "q",
            documents := [{ id := "a", content := pystr "ans", source := "g" }],
            confidence := 3/10 },
        reactCfg := { max_steps := 10 },
        memories := ["short_term", "long_term"] }
      { id := "q", text := pystr "x" } "p").2.2.2.1).isSome = true := by
  norm_num +decide [processQueryPlanPath, executePlan, execSteps, executeStep,
    ReActPlanner.create_plan, ReActPlanner.queryNeedsSearch,
    ReActPlanner.queryNeedsLocalData, ReActPlanner.queryNeedsCloud,
    Plan.add_step, desc, pySliceTo, firstArgmaxBy]

/-! ## C2: adapt_plan and non-pending steps -/

/-- Membership survives `List.insertIdx` at any index. -/
theorem mem_insertIdx_of_mem {a x : α} :
    ∀ (i : ℕ) (l : List α), a ∈ l → a ∈ List.insertIdx i x l := by
  intro i
  induction i with
  | zero => intro l h; simp [List.insertIdx_zero, h]
  | succ n ih =>
    intro l h
    cases l with
    | nil => simpa using h
    | cons b t =>
      rw [List.insertIdx_succ_cons]
      rcases List.mem_cons.mp h with rfl | hb
      · exact List.mem_cons_self _ _
      · exact List.mem_cons_of_mem _ (ih t hb)

/-- Membership survives a Python-style insert. -/
theorem mem_pyInsert {a x : α} (i : ℕ) (l : List α) (h : a ∈ l) :
    a ∈ pyInsert i x l := by
  unfold pyInsert
  split
  · exact List.mem_append_left _ h
  · exact mem_insertIdx_of_mem i l h

/-- Inserting an element the filter rejects keeps the filtered length. -/
theorem length_filter_insertIdx (p : α → Bool) {x : α} (hx : p x = false) :
    ∀ (i : ℕ) (l : List α),
    ((List.insertIdx i x l).filter p).length = (l.filter p).length := by
  intro i
  induction i with
  | zero => intro l; simp [List.insertIdx_zero, List.filter_cons, hx]
  | succ n ih =>
    intro l
    cases l with
    | nil => simp
    | cons b t =>
      rw [List.insertIdx_succ_cons]
      simp only [List.filter_cons]
      split <;> simp [ih t]

/-- Python-insert version of the previous lemma. -/
theorem length_filter_pyInsert (p : α → Bool) {x : α} (hx : p x = false)
    (i : ℕ) (l : List α) :
    ((pyInsert i x l).filter p).length = (l.filter p).length := by
  unfold pyInsert
  split
  · simp [List.filter_append, hx]
  · exact length_filter_insertIdx p hx i l

/-- The alternative-source insertion keeps every existing step. -/
theorem insertAlternativeSources_mem (plan : Plan) (avail : AgentType → Bool)
    {st : PlanStep} (hst : st ∈ plan.steps) :
    st ∈ (ReActPlanner.insertAlternativeSources plan avail).steps := by
  simp only [ReActPlanner.insertAlternativeSources]
  repeat' split
  all_goals first
    | exact hst
    | exact mem_pyInsert _ _ hst
    | exact mem_pyInsert _ _ (mem_pyInsert _ _ hst)

/-- The alternative-source insertion only adds pending steps, so the
non-pending count is unchanged. -/
theorem insertAlternativeSources_nonpending (plan : Plan)
    (avail : AgentType → Bool) :
    (((ReActPlanner.insertAlternativeSources plan avail).steps.filter
        (fun s => s.status ≠ .pending)).length) =
      ((plan.steps.filter (fun s => s.status ≠ .pending)).length) := by
  simp only [ReActPlanner.insertAlternativeSources]
  repeat' split
  all_goals simp [length_filter_pyInsert]

/-- Truncation to `max_steps` keeps every non-pending step as long as they
fit in the budget. -/
theorem truncateAdapted_mem (p : ReActPlanner) (plan : Plan) {st : PlanStep}
    (hbound : ((plan.steps.filter (fun s => s.status ≠ .pending)).length : Int)
      ≤ p.max_steps)
    (hst : st ∈ plan.steps) (hnp : st.status ≠ .pending) :
    st ∈ (ReActPlanner.truncateAdapted p plan).steps := by
  simp only [ReActPlanner.truncateAdapted]
  split
  · have hstc : st ∈ plan.steps.filter (fun s => s.status ≠ .pending) :=
      List.mem_filter.mpr ⟨hst, by simpa using hnp⟩
    split
    · exact List.mem_append_left _ hstc
    · next hneg =>
      have hc : p.max_steps =
          ((plan.steps.filter (fun s => s.status ≠ .pending)).length : Int) := by
        omega
      rw [hc]
      unfold pySliceTo
      rw [if_pos (by positivity)]
      simpa using hstc
  · exact hst

/-- Folding the need-to-step appends of the Chain-of-Thought planner
preserves existing steps. -/
theorem mem_foldl_need_steps {st : PlanStep} :
    ∀ (l : List (InfoNeed × PyStr)) (avail : AgentType → Bool) (pl : Plan),
    st ∈ pl.steps →
    st ∈ (l.foldl
      (fun pl x =>
        match ChainOfThoughtPlanner.mapInfoNeedToAgent x.1 avail with
        | some t => pl.add_step t x.2
        | none => pl)
      pl).steps := by
  intro l
  induction l with
  | nil => intro avail pl h; exact h
  | cons x t ih =>
    intro avail pl h
    simp only [List.foldl_cons]
    cases ChainOfThoughtPlanner.mapInfoNeedToAgent x.1 avail with
    | some ty => exact ih avail _ (mem_add_step h ty x.2)
    | none => exact ih avail pl h

/-- C2 (amended): the Chain-of-Thought `adapt_plan` keeps every completed
or in-progress step of the input plan unconditionally; the Reactive
`adapt_plan` keeps them provided no memory result with confidence ≥ 0.8
triggers its pending-only skip branch and the non-pending steps fit within
`max_steps`. -/
theorem adapt_plan_preserves_nonpending :
    (∀ (plan : Plan) (results : List AgentResult) (avail : AgentType → Bool)
        (newId : String) (st : PlanStep), st ∈ plan.steps →
        st.status ≠ .pending →
        st ∈ (ChainOfThoughtPlanner.adapt_plan plan results avail newId).steps) ∧
    (∀ (p : ReActPlanner) (plan : Plan) (results : List AgentResult)
        (avail : AgentType → Bool) (newId : String) (st : PlanStep),
        (∀ m0, (results.filter (fun r => r.agent_type = .MEMORY)).head? = some m0 →
          m0.confidence < 8/10) →
        ((plan.steps.filter (fun s => s.status ≠ .pending)).length : Int) ≤
          p.max_steps →
        st ∈ plan.steps → st.status ≠ .pending →
        st ∈ (p.adapt_plan plan results avail newId).steps) := by
  constructor
  · intro plan results avail newId st hst hnp
    have hstc : st ∈ plan.steps.filter (fun s => s.status ≠ .pending) :=
      List.mem_filter.mpr ⟨hst, by simpa using hnp⟩
    simp only [ChainOfThoughtPlanner.adapt_plan]
    split
    · have hbase :
          st ∈ (plan.steps.filter (fun s => s.status ≠ .pending)).map
            ChainOfThoughtPlanner.copyStep := by
        rw [List.map_id'' copyStep_eq]
        exact hstc
      split
      · split
        · exact mem_add_step (mem_add_step hbase _ _) _ _
        · exact mem_add_step hbase _ _
      · split
        · exact mem_add_step hbase _ _
        · exact hbase
    · split
      · apply mem_foldl_need_steps
        rw [List.map_id'' copyStep_eq]
        exact hst
      · exact hst
  · intro p plan results avail newId st hmem hbound hst hnp
    simp only [ReActPlanner.adapt_plan]
    split
    · next m0 hh =>
      rw [if_neg (fun hge => absurd hge (not_le.mpr (hmem m0 hh)))]
      split
      · next s0 hs =>
        split
        · exact truncateAdapted_mem p _
            (by rw [insertAlternativeSources_nonpending]; exact hbound)
            (insertAlternativeSources_mem plan avail hst) hnp
        · exact truncateAdapted_mem p plan hbound hst hnp
      · exact truncateAdapted_mem p plan hbound hst hnp
    · next hh =>
      split
      · next s0 hs =>
        split
        · exact truncateAdapted_mem p _
            (by rw [insertAlternativeSources_nonpending]; exact hbound)
            (insertAlternativeSources_mem plan avail hst) hnp
        · exact truncateAdapted_mem p plan hbound hst hnp
      · exact truncateAdapted_mem p plan hbound hst hnp

/-- C2 counterexample for the claim as stated: given a high-confidence
memory result, the Reactive `adapt_plan` returns a plan whose steps are
empty although the input plan held a completed generation step — the
completed step is silently dropped. -/
theorem react_adapt_drops_completed_step :
    (ReActPlanner.adapt_plan { max_steps := 10 }
      { id := "p1", query_id := "q", planner_type := "react",
        steps := [{ agent_type := .GENERATIVE, description := pystr "g",
                    status := .completed, result := none }],
        status := .executing }
      [{ agent_id := "m", agent_type := .MEMORY, query_id := "q",
         documents := [], confidence := 9/10 }]
      (fun _ => true) "p2").steps = [] := by
  norm_num +decide [ReActPlanner.adapt_plan]

/-! ## C3: plans and the max_steps bound -/

/-- The final truncation of `create_plan` caps the step count at a
non-negative `max_steps`. -/
theorem truncIf_le (m : Int) (hm : 0 ≤ m) (pl : Plan) :
    (((if (pl.steps.length : Int) > m then
        { pl with steps := pySliceTo m pl.steps } else pl).steps.length : Int)
      ≤ m) := by
  split
  · next h =>
    simp only [pySliceTo, if_pos hm, List.length_take]
    omega
  · next h => omega

/-- The adapt-time truncation caps the step count at a non-negative
`max_steps`. -/
theorem truncateAdapted_le (p : ReActPlanner) (hm : 0 ≤ p.max_steps)
    (plan : Plan) :
    (((ReActPlanner.truncateAdapted p plan).steps.length : Int) ≤ p.max_steps) := by
  simp only [ReActPlanner.truncateAdapted]
  split
  · next h =>
    split
    · next hrem =>
      simp only [pySliceTo, if_pos (le_of_lt hrem), List.length_append,
        List.length_take]
      omega
    · next hrem =>
      simp only [pySliceTo, if_pos hm, List.length_take]
      omega
  · next h => omega

/-- Appending one step per list element from an empty plan. -/
theorem length_foldl_add_step :
    ∀ (l : List PlanStep) (pl : Plan),
    ((l.foldl (fun pl st => pl.add_step st.agent_type st.description)
      pl).steps).length = pl.steps.length + l.length := by
  intro l
  induction l with
  | nil => intro pl; simp
  | cons st t ih =>
    intro pl
    simp only [List.foldl_cons, ih, add_step_steps, List.length_append]
    simp
    omega

/-- C3 (amended): the Reactive planner's `create_plan` returns at most
`max_steps` steps (for any non-negative `max_steps`), and its `adapt_plan`
preserves that bound whenever the input plan respects it.  (The
Chain-of-Thought planner enforces no bound; see the counterexample.) -/
theorem react_plans_within_max_steps :
    (∀ (p : ReActPlanner) (q : Query) (avail : AgentType → Bool)
        (planId : String), 0 ≤ p.max_steps →
      (((p.create_plan q avail planId).steps.length : Int) ≤ p.max_steps)) ∧
    (∀ (p : ReActPlanner) (plan : Plan) (results : List AgentResult)
        (avail : AgentType → Bool) (newId : String), 0 ≤ p.max_steps →
      ((plan.steps.length : Int) ≤ p.max_steps) →
      (((p.adapt_plan plan results avail newId).steps.length : Int) ≤
        p.max_steps)) := by
  constructor
  · intro p q avail planId hm
    simp only [ReActPlanner.create_plan]
    exact truncIf_le p.max_steps hm _
  · intro p plan results avail newId hm hlen
    simp only [ReActPlanner.adapt_plan]
    split
    · next m0 hh =>
      split
      · rw [length_foldl_add_step]
        have hle := List.length_filter_le
          (fun st => decide (¬(st.agent_type = AgentType.SEARCH ∨
            st.agent_type = AgentType.LOCAL_DATA ∨
            st.agent_type = AgentType.CLOUD) ∧ st.status = StepStatus.pending))
          plan.steps
        simp only [List.length_nil]
        omega
      · split
        · split
          · exact truncateAdapted_le p hm _
          · exact truncateAdapted_le p hm _
        · exact truncateAdapted_le p hm _
    · next hh =>
      split
      · split
        · exact truncateAdapted_le p hm _
        · exact truncateAdapted_le p hm _
      · exact truncateAdapted_le p hm _

/-- C3 counterexample for the claim as stated: the Chain-of-Thought
`create_plan` never truncates, so a query matching all five keyword
categories yields an 8-step plan, exceeding the planner's depth bound of
5. -/
theorem cot_create_plan_exceeds_bound :
    (ChainOfThoughtPlanner.create_plan
      { id := "q", text := pystr "what define compare data best" }
      (fun _ => true) "p" "f").steps.length = 8 ∧
    ¬ ((8 : Int) ≤ (ChainOfThoughtPlanner.mk 5).max_depth) := by
  constructor
  · decide
  · decide

/-! ## C10: the search predicate and the search step -/

/-- C10 (amended): the Reactive planner's search predicate is constantly
true (its keyword scan falls through to a default of `True`), so a reactive
plan contains a search step whenever the search agent is available and
`max_steps` leaves room for it (at least 2, covering the optional leading
memory step); truncation to a smaller `max_steps` can drop it. -/
theorem react_search_always_true :
    (∀ txt : PyStr, ReActPlanner.queryNeedsSearch txt = true) ∧
    (∀ (p : ReActPlanner) (q : Query) (avail : AgentType → Bool)
        (planId : String), avail AgentType.SEARCH = true →
      2 ≤ p.max_steps →
      ∃ st ∈ (p.create_plan q avail planId).steps,
        st.agent_type = AgentType.SEARCH) := by
  constructor
  · intro txt
    simp [ReActPlanner.queryNeedsSearch]
  · intro p q avail planId hs hm
    have hq : ReActPlanner.queryNeedsSearch q.text = true := by
      simp [ReActPlanner.queryNeedsSearch]
    have hm0 : (0 : Int) ≤ p.max_steps := by omega
    obtain ⟨k, hk⟩ : ∃ k, p.max_steps.toNat = k + 2 :=
      ⟨p.max_steps.toNat - 2, by omega⟩
    by_cases h1 : avail AgentType.MEMORY = true <;>
      by_cases h3 : (ReActPlanner.queryNeedsLocalData q.text &&
        avail AgentType.LOCAL_DATA) = true <;>
      by_cases h4 : (ReActPlanner.queryNeedsCloud q.text &&
        avail AgentType.CLOUD) = true <;>
      by_cases h5 : avail AgentType.AGGREGATOR = true <;>
      by_cases h6 : avail AgentType.GENERATIVE = true <;>
      · simp [ReActPlanner.create_plan, hq, hs, h1, h3, h4, h5, h6,
          Plan.add_step]
        try (split <;> simp [pySliceTo, hm0, hk, List.take_succ_cons])

/-- C10 counterexample for the claim as stated: with `max_steps = 1` and
both memory and search agents available, truncation leaves only the memory
step — the plan contains no search step although the search agent is
available. -/
theorem react_truncation_drops_search :
    ((ReActPlanner.mk 1).create_plan { id := "q", text := pystr "x" }
      (fun t => decide (t = AgentType.MEMORY) || decide (t = AgentType.SEARCH))
      "p").steps.map (fun st => st.agent_type) = [AgentType.MEMORY] := by
  decide

/-! ## C1: short-term store-then-retrieve by identical text -/

/-- C1 (code bug): after `store(Query("cats"), result)` into an empty
short-term memory, retrieving with a fresh query of identical text `"cats"`
but a different id returns nothing — `retrieve` can only recover the stored
query text when the incoming query id equals the stored `query_id`
(`short_term.py` line 67), so text-based matching never fires.  Retrieving
with the original query id succeeds at confidence 0.9 with both documents,
showing the entry is present and only the text-based lookup is broken. -/
theorem short_term_retrieve_requires_same_query_id :
    ShortTermMemory.store
      { capacity := 3, ttl := 0, memory := [], document_store := [] }
      { id := "q1", text := pystr "cats" }
      { agent_id := "a", agent_type := .SEARCH, query_id := "q1",
        documents := [{ id := "d1", content := pystr "c1", source := "s1" },
                      { id := "d2", content := pystr "c2", source := "s2" }],
        confidence := 8/10 }
      "m1" 0 = .ok
      { capacity := 3, ttl := 0,
        memory := [("m1",
          { id := "m1", query_id := "q1", document_ids := ["d1", "d2"],
            created_at := 0, access_count := 0, relevance_score := 8/10,
            memory_type := "short_term" })],
        document_store :=
          [("d1", { id := "d1", content := pystr "c1", source := "s1" }),
           ("d2", { id := "d2", content := pystr "c2", source := "s2" })] } ∧
    (ShortTermMemory.retrieve
      { capacity := 3, ttl := 0,
        memory := [("m1",
          { id := "m1", query_id := "q1", document_ids := ["d1", "d2"],
            created_at := 0, access_count := 0, relevance_score := 8/10,
            memory_type := "short_term" })],
        document_store :=
          [("d1", { id := "d1", content := pystr "c1", source := "s1" }),
           ("d2", { id := "d2", content := pystr "c2", source := "s2" })] }
      { id := "q2", text := pystr "cats" } 0).1 = none ∧
    (ShortTermMemory.retrieve
      { capacity := 3, ttl := 0,
        memory := [("m1",
          { id := "m1", query_id := "q1", document_ids := ["d1", "d2"],
            created_at := 0, access_count := 0, relevance_score := 8/10,
            memory_type := "short_term" })],
        document_store :=
          [("d1", { id := "d1", content := pystr "c1", source := "s1" }),
           ("d2", { id := "d2", content := pystr "c2", source := "s2" })] }
      { id := "q1", text := pystr "cats" } 0).1 =
      some { agent_id := "short_term_memory", agent_type := .MEMORY,
             query_id := "q1",
             documents := [{ id := "d1", content := pystr "c1", source := "s1" },
                           { id := "d2", content := pystr "c2", source := "s2" }],
             confidence := 9/10 } := by
  have hk1 : ShortTermMemory.keywords (pystr "cats") = [pystr "cats"] := by
    decide
  have hk2 : interCard [pystr "cats"] [pystr "cats"] = 1 := by decide
  refine ⟨?_, ?_, ?_⟩
  · simp only [ShortTermMemory.store, List.foldl_cons, List.foldl_nil,
      List.map_cons, List.map_nil]
    rw [ShortTermMemory.evictLoop]
    norm_num +decide [OD.insert, OD.hasKey]
  · norm_num +decide [ShortTermMemory.retrieve, ShortTermMemory.clearExpired,
      ShortTermMemory.bestMatch, ShortTermMemory.entryScore]
  · norm_num +decide [ShortTermMemory.retrieve, ShortTermMemory.clearExpired,
      ShortTermMemory.bestMatch, ShortTermMemory.entryScore, hk1, hk2,
      OD.find, OD.moveToEnd, OD.insert, OD.erase, OD.hasKey,
      MemoryEntry.update_access]

/-! ## C6: capacity bound and LRU eviction -/

/-- Keys after a Python dict insert. -/
theorem OD.keys_insert {β : Type} (d : List (String × β)) (k : String) (v : β) :
    (OD.insert d k v).map Prod.fst =
      if OD.hasKey d k then d.map Prod.fst else d.map Prod.fst ++ [k] := by
  unfold OD.insert
  split
  · rw [List.map_map]
    refine List.map_congr_left ?_
    intro p _
    by_cases hp : p.1 = k
    · simp [hp]
    · simp [hp]
  · simp

/-- Distinct keys survive a Python dict insert. -/
theorem OD.nodup_keys_insert {β : Type} {d : List (String × β)} {k : String}
    {v : β} (h : (d.map Prod.fst).Nodup) :
    ((OD.insert d k v).map Prod.fst).Nodup := by
  rw [OD.keys_insert]
  split
  · exact h
  · next hk =>
    rw [List.nodup_append]
    refine ⟨h, List.nodup_singleton k, ?_⟩
    intro a ha hk1
    simp only [List.mem_singleton] at hk1
    subst hk1
    unfold OD.hasKey at hk
    simp only [List.any_eq_true, decide_eq_true_eq] at hk
    obtain ⟨p, hp, rfl⟩ := List.mem_map.mp ha
    exact hk ⟨p, hp, rfl⟩

/-- Erasing the head key of a distinct-key map keeps exactly the tail. -/
theorem OD.erase_head {β : Type} (k : String) (v : β)
    (t : List (String × β)) (hk : k ∉ t.map Prod.fst) :
    OD.erase ((k, v) :: t) k = t := by
  unfold OD.erase
  rw [List.filter_cons]
  simp only [decide_not, decide_True, Bool.not_true, Bool.false_eq_true,
    if_false]
  apply List.filter_eq_self.mpr
  intro p hp
  have hpk : p.1 ≠ k := fun hpk => hk (List.mem_map.mpr ⟨p, hp, hpk⟩)
  simp [hpk]

/-- Removing the head entry of a distinct-key memory leaves the tail (and
touches neither capacity nor ttl). -/
theorem remove_head (s : ShortTermMemory) (k : String) (v : MemoryEntry)
    (rest : List (String × MemoryEntry)) (heq : s.memory = (k, v) :: rest)
    (hnd : (s.memory.map Prod.fst).Nodup) :
    (s.remove k).1.memory = rest ∧ (s.remove k).1.capacity = s.capacity ∧
      (s.remove k).1.ttl = s.ttl := by
  have hknotin : k ∉ rest.map Prod.fst := by
    rw [heq, List.map_cons] at hnd
    exact (List.nodup_cons.mp hnd).1
  unfold ShortTermMemory.remove
  rw [heq]
  have hfind : OD.find ((k, v) :: rest) k = some v := by
    unfold OD.find
    rw [List.find?_cons_of_pos _ (by simp)]
    rfl
  rw [hfind]
  refine ⟨?_, rfl, rfl⟩
  show OD.erase ((k, v) :: rest) k = rest
  exact OD.erase_head k v rest hknotin

/-- The eviction loop of `store` terminates with a suffix of the ordered
map (evicting from the least-recently-used front) within capacity, whenever
capacity is non-negative and the keys are distinct. -/
theorem evictLoop_drop :
    ∀ (n : ℕ) (s : ShortTermMemory), s.memory.length = n →
    0 ≤ s.capacity → (s.memory.map Prod.fst).Nodup →
    ∃ (k : ℕ) (s2 : ShortTermMemory),
      ShortTermMemory.evictLoop s = .ok s2 ∧ s2.memory = s.memory.drop k ∧
      ((s2.memory.length : Int) ≤ s.capacity) ∧ s2.capacity = s.capacity := by
  intro n
  induction n using Nat.strong_induction_on with
  | _ n ih =>
    intro s hn hcap hnd
    rw [ShortTermMemory.evictLoop]
    split
    · next hgt =>
      split
      · next heq =>
        exfalso
        rw [heq] at hgt
        simp at hgt
        omega
      · next k v rest heq =>
        obtain ⟨hmem, hcap2, -⟩ := remove_head s k v rest heq hnd
        have hlen : (s.remove k).1.memory.length < n := by
          rw [hmem, ← hn, heq]
          simp
        have hnd2 : ((s.remove k).1.memory.map Prod.fst).Nodup := by
          rw [hmem]
          rw [heq] at hnd
          exact (List.nodup_cons.mp (by simpa using hnd)).2
        obtain ⟨j, s2, h1, h2, h3, h4⟩ :=
          ih _ hlen (s.remove k).1 rfl (by rw [hcap2]; exact hcap) hnd2
        refine ⟨j + 1, s2, h1, ?_, ?_, ?_⟩
        · rw [h2, hmem, heq]
          rfl
        · rw [← hcap2]
          exact h3
        · rw [h4, hcap2]
    · next hgt =>
      exact ⟨0, s, rfl, rfl, le_of_not_lt hgt, rfl⟩

/-- C6 (amended): with a non-negative capacity and distinct entry ids,
`store` succeeds, leaves at most `capacity` entries, evicts only from the
least-recently-used front (the surviving map is a suffix of the map with
the new entry appended), and with capacity 0 the stored entry is itself
immediately evicted, so nothing remains.  (With capacity < 0 the eviction
loop raises `StopIteration` instead; see the counterexample.) -/
theorem store_respects_capacity_lru (s : ShortTermMemory) (q : Query)
    (r : AgentResult) (entryId : String) (now : ℚ) (hcap : 0 ≤ s.capacity)
    (hnd : (s.memory.map Prod.fst).Nodup) :
    ∃ s2, s.store q r entryId now = .ok s2 ∧
      ((s2.memory.length : Int) ≤ s.capacity) ∧
      (∃ k, s2.memory =
        (OD.insert s.memory entryId
          { id := entryId, query_id := q.id,
            document_ids := r.documents.map (fun d => d.id),
            created_at := now, access_count := 0,
            relevance_score := r.confidence,
            memory_type := "short_term" }).drop k) ∧
      (s.capacity = 0 → s2.memory = []) := by
  obtain ⟨k, s2, h1, h2, h3, h4⟩ :=
    evictLoop_drop
      (({ capacity := s.capacity, ttl := s.ttl,
          memory := OD.insert s.memory entryId
            { id := entryId, query_id := q.id,
              document_ids := r.documents.map (fun d => d.id),
              created_at := now, access_count := 0,
              relevance_score := r.confidence,
              memory_type := "short_term" },
          document_store :=
            r.documents.foldl (fun st d => OD.insert st d.id d)
              s.document_store } : ShortTermMemory).memory.length)
      { capacity := s.capacity, ttl := s.ttl,
        memory := OD.insert s.memory entryId
          { id := entryId, query_id := q.id,
            document_ids := r.documents.map (fun d => d.id),
            created_at := now, access_count := 0,
            relevance_score := r.confidence,
            memory_type := "short_term" },
        document_store :=
          r.documents.foldl (fun st d => OD.insert st d.id d)
            s.document_store }
      rfl (by simpa using hcap) (by simpa using OD.nodup_keys_insert hnd)
  refine ⟨s2, h1, by simpa using h3, ⟨k, by simpa using h2⟩, ?_⟩
  intro h0
  have : (s2.memory.length : Int) ≤ 0 := by
    have := h3
    simp only [h0] at this ⊢
    simpa using this
  have hlen0 : s2.memory.length = 0 := by omega
  exact List.eq_nil_of_length_eq_zero hlen0

/-- C6 counterexample for the claim as stated: with capacity -1 the
eviction loop empties the map and then calls `next(iter({}.items()))`,
raising `StopIteration` out of `store` — the claimed "at most capacity
entries" state (impossible for a negative capacity) is never reached. -/
theorem store_negative_capacity_raises :
    ShortTermMemory.store
      { capacity := -1, ttl := 0, memory := [], document_store := [] }
      { id := "q1", text := pystr "t" }
      { agent_id := "a", agent_type := .SEARCH, query_id := "q1",
        documents := [], confidence := 1/2 }
      "m1" 0 = .error "StopIteration" := by
  show ShortTermMemory.evictLoop
    { capacity := -1, ttl := 0,
      memory := [("m1",
        { id := "m1", query_id := "q1", document_ids := [],
          created_at := 0, access_count := 0, relevance_score := 1/2,
          memory_type := "short_term" })],
      document_store := [] } = .error "StopIteration"
  rw [ShortTermMemory.evictLoop]
  rw [dif_pos (by norm_num)]
  show ShortTermMemory.evictLoop
    { capacity := -1, ttl := 0, memory := [], document_store := [] } =
      .error "StopIteration"
  rw [ShortTermMemory.evictLoop]
  rw [dif_pos (by norm_num)]

/-! ## C9: aggregation, deduplication and the summary document -/

/-- Deduplication yields a sublist (relative order preserved). -/
theorem dedupGo_sublist :
    ∀ (docs : List Document) (seen : List PyStr),
    List.Sublist (AggregatorAgent.dedupGo seen docs) docs := by
  intro docs
  induction docs with
  | nil => intro seen; exact List.Sublist.refl []
  | cons d rest ih =>
    intro seen
    unfold AggregatorAgent.dedupGo
    split
    · exact (ih seen).cons d
    · exact (ih (AggregatorAgent.sig d :: seen)).cons₂ d

/-- Every input document's signature is represented in the output (unless
already seen). -/
theorem dedupGo_covers :
    ∀ (docs : List Document) (seen : List PyStr) (d : Document), d ∈ docs →
    AggregatorAgent.sig d ∈ seen ∨
      ∃ d2 ∈ AggregatorAgent.dedupGo seen docs,
        AggregatorAgent.sig d2 = AggregatorAgent.sig d := by
  intro docs
  induction docs with
  | nil => intro seen d h; cases h
  | cons d0 rest ih =>
    intro seen d h
    unfold AggregatorAgent.dedupGo
    rcases List.mem_cons.mp h with rfl | hrest
    · split
      · next hseen => exact Or.inl hseen
      · next hseen =>
        exact Or.inr ⟨d, List.mem_cons_self _ _, rfl⟩
    · split
      · next hseen => exact ih seen d hrest
      · next hseen =>
        rcases ih (AggregatorAgent.sig d0 :: seen) d hrest with hin | ⟨d2, h2, h3⟩
        · rcases List.mem_cons.mp hin with heq | hin2
          · exact Or.inr ⟨d0, List.mem_cons_self _ _, heq.symm⟩
          · exact Or.inl hin2
        · exact Or.inr ⟨d2, List.mem_cons_of_mem _ h2, h3⟩

/-- Each output document is the first input document bearing its signature,
and its signature was not previously seen. -/
theorem dedupGo_first :
    ∀ (docs : List Document) (seen : List PyStr) (d2 : Document),
    d2 ∈ AggregatorAgent.dedupGo seen docs →
    AggregatorAgent.sig d2 ∉ seen ∧
      docs.find? (fun x => AggregatorAgent.sig x = AggregatorAgent.sig d2) =
        some d2 := by
  intro docs
  induction docs with
  | nil => intro seen d2 h; simp [AggregatorAgent.dedupGo] at h
  | cons d0 rest ih =>
    intro seen d2 h
    unfold AggregatorAgent.dedupGo at h
    split at h
    · next hseen =>
      obtain ⟨hnot, hfind⟩ := ih seen d2 h
      have hne : AggregatorAgent.sig d0 ≠ AggregatorAgent.sig d2 := by
        intro heq
        exact hnot (heq ▸ hseen)
      refine ⟨hnot, ?_⟩
      rw [List.find?_cons_of_neg _ (by simpa using hne), hfind]
    · next hseen =>
      rcases List.mem_cons.mp h with rfl | htail
      · exact ⟨hseen, by rw [List.find?_cons_of_pos _ (by simp)]⟩
      · obtain ⟨hnot, hfind⟩ := ih (AggregatorAgent.sig d0 :: seen) d2 htail
        have hne : AggregatorAgent.sig d0 ≠ AggregatorAgent.sig d2 := by
          intro heq
          exact hnot (by simp [heq])
        refine ⟨fun hs => hnot (List.mem_cons_of_mem _ hs), ?_⟩
        rw [List.find?_cons_of_neg _ (by simpa using hne), hfind]

/-- Output signatures are pairwise distinct. -/
theorem dedupGo_nodup :
    ∀ (docs : List Document) (seen : List PyStr),
    ((AggregatorAgent.dedupGo seen docs).map AggregatorAgent.sig).Nodup := by
  intro docs
  induction docs with
  | nil => intro seen; simp [AggregatorAgent.dedupGo]
  | cons d0 rest ih =>
    intro seen
    unfold AggregatorAgent.dedupGo
    split
    · exact ih seen
    · rw [List.map_cons, List.nodup_cons]
      refine ⟨?_, ih _⟩
      intro hmem
      obtain ⟨d2, h2, h3⟩ := List.mem_map.mp hmem
      obtain ⟨hnot, -⟩ := dedupGo_first rest (AggregatorAgent.sig d0 :: seen) d2 h2
      exact hnot (by simp [h3])

/-- C9: on a non-empty input, `aggregate` returns deduplicated-count + 1
documents when at least one document survives deduplication (the summary is
prepended), else 0; and deduplication keeps, per first-100-character
signature, exactly the first document bearing it, preserving relative
order, so documents differing within the first 100 characters are all
kept. -/
theorem aggregate_count_and_dedup (a : AggregatorAgent) (q : Query)
    (results : List AgentResult) (hne : results ≠ []) :
    ((a.aggregate q results).documents.length =
      if (AggregatorAgent.deduplicateDocuments (a.mergePhase results).1).isEmpty
      then 0
      else (AggregatorAgent.deduplicateDocuments
        (a.mergePhase results).1).length + 1) ∧
    (∀ docs : List Document,
      List.Sublist (AggregatorAgent.deduplicateDocuments docs) docs ∧
      ((AggregatorAgent.deduplicateDocuments docs).map
        AggregatorAgent.sig).Nodup ∧
      (∀ d ∈ docs, ∃ d2 ∈ AggregatorAgent.deduplicateDocuments docs,
        AggregatorAgent.sig d2 = AggregatorAgent.sig d) ∧
      (∀ d2 ∈ AggregatorAgent.deduplicateDocuments docs,
        docs.find? (fun x => AggregatorAgent.sig x = AggregatorAgent.sig d2) =
          some d2)) := by
  constructor
  · have hne2 : results.isEmpty = false := by
      cases results with
      | nil => exact absurd rfl hne
      | cons a l => rfl
    simp only [AggregatorAgent.aggregate, hne2, Bool.false_eq_true, if_false]
    by_cases hd :
        (AggregatorAgent.deduplicateDocuments (a.mergePhase results).1).isEmpty
    · simp [hd, List.isEmpty_iff.mp hd]
    · simp [hd]
  · intro docs
    refine ⟨dedupGo_sublist docs [], dedupGo_nodup docs [], ?_, ?_⟩
    · intro d hd
      rcases dedupGo_covers docs [] d hd with h | h
      · cases h
      · exact h
    · intro d2 h2
      exact (dedupGo_first docs [] d2 h2).2

/-! ## Witnesses: concrete instantiations of the hypothesis-bearing
claim theorems -/

/-- Witness for C2 at a concrete plan: both adapt variants keep a concrete
completed search step. -/
theorem adapt_plan_preserves_nonpending_witness :
    ({ agent_type := AgentType.SEARCH, description := pystr "s",
       status := StepStatus.completed, result := none } : PlanStep) ∈
      (ChainOfThoughtPlanner.adapt_plan
        { id := "p1", query_id := "q", planner_type := "cot",
          steps := [{ agent_type := .SEARCH, description := pystr "s",
                      status := .completed, result := none }],
          status := .executing }
        [] (fun _ => false) "p2").steps ∧
    ({ agent_type := AgentType.SEARCH, description := pystr "s",
       status := StepStatus.completed, result := none } : PlanStep) ∈
      (ReActPlanner.adapt_plan { max_steps := 3 }
        { id := "p1", query_id := "q", planner_type := "react",
          steps := [{ agent_type := .SEARCH, description := pystr "s",
                      status := .completed, result := none }],
          status := .executing }
        [] (fun _ => false) "p2").steps := by
  constructor
  · exact adapt_plan_preserves_nonpending.1 _ [] (fun _ => false) "p2" _
      (by simp) (by decide)
  · exact adapt_plan_preserves_nonpending.2 { max_steps := 3 } _ []
      (fun _ => false) "p2" _
      (by intro m0 hm0; simp at hm0) (by decide) (by simp) (by decide)

/-- Witness for C3 at concrete inputs: a 2-step budget is respected by
`create_plan` and preserved by `adapt_plan`. -/
theorem react_plans_within_max_steps_witness :
    (((ReActPlanner.mk 2).create_plan { id := "q", text := pystr "hello" }
        (fun _ => true) "p").steps.length : Int) ≤ 2 ∧
    (((ReActPlanner.mk 2).adapt_plan
        { id := "p1", query_id := "q", planner_type := "react", steps := [],
          status := .created } [] (fun _ => true) "p2").steps.length : Int) ≤ 2 := by
  constructor
  · exact react_plans_within_max_steps.1 ⟨2⟩ _ _ "p" (by norm_num)
  · exact react_plans_within_max_steps.2 ⟨2⟩ _ [] _ "p2" (by norm_num) (by simp)

/-- Witness for C10 at a concrete availability map: with budget 5 the plan
contains a search step. -/
theorem react_search_always_true_witness :
    ReActPlanner.queryNeedsSearch (pystr "anything") = true ∧
    ∃ st ∈ ((ReActPlanner.mk 5).create_plan { id := "q", text := pystr "x" }
      (fun t => decide (t = AgentType.MEMORY) || decide (t = AgentType.SEARCH))
      "p").steps, st.agent_type = AgentType.SEARCH := by
  constructor
  · exact react_search_always_true.1 (pystr "anything")
  · exact react_search_always_true.2 ⟨5⟩ _ _ "p" (by decide) (by norm_num)

/-- Witness for C6 at a concrete store call into an empty two-slot map. -/
theorem store_respects_capacity_lru_witness :
    ∃ s2, ShortTermMemory.store
        { capacity := 2, ttl := 0, memory := [], document_store := [] }
        { id := "q1", text := pystr "t" }
        { agent_id := "a", agent_type := .SEARCH, query_id := "q1",
          documents := [], confidence := 1/2 } "m1" 0 = .ok s2 ∧
      ((s2.memory.length : Int) ≤ 2) ∧
      (∃ k, s2.memory =
        (OD.insert [] "m1"
          { id := "m1", query_id := "q1", document_ids := [].map (fun d => Document.id d),
            created_at := 0, access_count := 0, relevance_score := 1/2,
            memory_type := "short_term" }).drop k) ∧
      ((2 : Int) = 0 → s2.memory = []) := by
  exact store_respects_capacity_lru
    { capacity := 2, ttl := 0, memory := [], document_store := [] }
    { id := "q1", text := pystr "t" }
    { agent_id := "a", agent_type := .SEARCH, query_id := "q1",
      documents := [], confidence := 1/2 } "m1" 0 (by norm_num) (by simp)

/-- Witness for C9 at the spec's aggregation example (two search documents
and one local-data document). -/
theorem aggregate_count_and_dedup_witness :
    ((AggregatorAgent.mk 5).aggregate { id := "q", text := pystr "t" }
      [{ agent_id := "s", agent_type := .SEARCH, query_id := "q",
         documents := [{ id := "d1", content := pystr "a", source := "w1" },
                       { id := "d2", content := pystr "b", source := "w2" }],
         confidence := 8/10 },
       { agent_id := "l", agent_type := .LOCAL_DATA, query_id := "q",
         documents := [{ id := "d3", content := pystr "c", source := "f1" }],
         confidence := 7/10 }]).documents.length =
      (if (AggregatorAgent.deduplicateDocuments
          ((AggregatorAgent.mk 5).mergePhase
            [{ agent_id := "s", agent_type := .SEARCH, query_id := "q",
               documents := [{ id := "d1", content := pystr "a", source := "w1" },
                             { id := "d2", content := pystr "b", source := "w2" }],
               confidence := 8/10 },
             { agent_id := "l", agent_type := .LOCAL_DATA, query_id := "q",
               documents := [{ id := "d3", content := pystr "c", source := "f1" }],
               confidence := 7/10 }]).1).isEmpty then 0
        else (AggregatorAgent.deduplicateDocuments
          ((AggregatorAgent.mk 5).mergePhase
            [{ agent_id := "s", agent_type := .SEARCH, query_id := "q",
               documents := [{ id := "d1", content := pystr "a", source := "w1" },
                             { id := "d2", content := pystr "b", source := "w2" }],
               confidence := 8/10 },
             { agent_id := "l", agent_type := .LOCAL_DATA, query_id := "q",
               documents := [{ id := "d3", content := pystr "c", source := "f1" }],
               confidence := 7/10 }]).1).length + 1) := by
  exact (aggregate_count_and_dedup ⟨5⟩ _ _ (by simp)).1

/-- Witness for C5 at a concrete pipeline whose final confidence is 0.75:
both configured tiers receive the store call. -/
theorem write_back_both_tiers_witness :
    (processQueryPlanPath
      { agents := fun t =>
          match t with
          | .SEARCH => some (fun _ => .ok
              { agent_id := "search", agent_type := .SEARCH, query_id := "q",
                documents := [{ id := "d", content := pystr "c", source := "s" }],
                confidence := 2/10 })
          | .GENERATIVE => some (fun _ => .ok
              { agent_id := "gen", agent_type := .GENERATIVE, query_id := "q",
                documents := [], confidence := 1/10 })
          | _ => none,
        aggregatorCfg := { max_agents := 5 },
        generateResponse := fun _ _ =>
          { agent_id := "gen", agent_type := .GENERATIVE, query_id := "q",
            documents := [{ id := "a", content := pystr "ans", source := "g" }],
            confidence := 3/4 },
        reactCfg := { max_steps := 10 },
        memories := ["short_term", "long_term"] }
      { id := "q", text := pystr "x" } "p").2.2.2.2 =
      ["short_term", "long_term"].map (fun n =>
        (n, ({ id := "q", text := pystr "x" } : Query),
          ({ agent_id := "gen", agent_type := .GENERATIVE, query_id := "q",
             documents := [{ id := "a", content := pystr "ans", source := "g" }],
             confidence := 3/4 } : AgentResult))) := by
  apply (write_back_both_tiers _ _ _).1
  · norm_num +decide [processQueryPlanPath, executePlan, execSteps, executeStep,
      ReActPlanner.create_plan, ReActPlanner.queryNeedsSearch,
      ReActPlanner.queryNeedsLocalData, ReActPlanner.queryNeedsCloud,
      Plan.add_step, desc, pySliceTo, firstArgmaxBy]
  · norm_num

/-- Witness for C8 at a concrete two-step plan with one failing agent. -/
theorem plan_failure_tolerance_witness :
    ((executePlan
      (fun t =>
        match t with
        | AgentType.SEARCH => some (fun _ => .ok
            { agent_id := "s", agent_type := .SEARCH, query_id := "q",
              documents := [], confidence := 1/2 })
        | AgentType.CLOUD => some (fun _ => .error ())
        | _ => none)
      { id := "q", text := pystr "t" }
      { id := "p", query_id := "q", planner_type := "react",
        steps := [{ agent_type := .SEARCH, description := pystr "s" },
                  { agent_type := .CLOUD, description := pystr "c" }],
        status := .created }).1.status = .completed ↔
      ∀ st ∈ (executePlan
        (fun t =>
          match t with
          | AgentType.SEARCH => some (fun _ => .ok
              { agent_id := "s", agent_type := .SEARCH, query_id := "q",
                documents := [], confidence := 1/2 })
          | AgentType.CLOUD => some (fun _ => .error ())
          | _ => none)
        { id := "q", text := pystr "t" }
        { id := "p", query_id := "q", planner_type := "react",
          steps := [{ agent_type := .SEARCH, description := pystr "s" },
                    { agent_type := .CLOUD, description := pystr "c" }],
          status := .created }).1.steps, st.status = .completed) := by
  exact (plan_failure_tolerance _ _ _).1

/-- Sanity check of the embedding against the spec's worked aggregation
example: two search documents at confidence 0.8 plus one local-data
document at confidence 0.7 aggregate to 4 documents (3 + 1 summary) at
confidence 0.75. -/
theorem aggregate_spec_example :
    ((AggregatorAgent.mk 5).aggregate { id := "q", text := pystr "t" }
      [{ agent_id := "s", agent_type := .SEARCH, query_id := "q",
         documents := [{ id := "d1", content := pystr "a", source := "w1" },
                       { id := "d2", content := pystr "b", source := "w2" }],
         confidence := 8/10 },
       { agent_id := "l", agent_type := .LOCAL_DATA, query_id := "q",
         documents := [{ id := "d3", content := pystr "c", source := "f1" }],
         confidence := 7/10 }]).documents.length = 4 ∧
    ((AggregatorAgent.mk 5).aggregate { id := "q", text := pystr "t" }
      [{ agent_id := "s", agent_type := .SEARCH, query_id := "q",
         documents := [{ id := "d1", content := pystr "a", source := "w1" },
                       { id := "d2", content := pystr "b", source := "w2" }],
         confidence := 8/10 },
       { agent_id := "l", agent_type := .LOCAL_DATA, query_id := "q",
         documents := [{ id := "d3", content := pystr "c", source := "f1" }],
         confidence := 7/10 }]).confidence = 3/4 := by
  have hd : AggregatorAgent.deduplicateDocuments
      [({ id := "d1", content := pystr "a", source := "w1" } : Document),
       { id := "d2", content := pystr "b", source := "w2" },
       { id := "d3", content := pystr "c", source := "f1" }] =
      [{ id := "d1", content := pystr "a", source := "w1" },
       { id := "d2", content := pystr "b", source := "w2" },
       { id := "d3", content := pystr "c", source := "f1" }] := by decide
  constructor <;>
    norm_num +decide [AggregatorAgent.aggregate, AggregatorAgent.mergePhase,
      AggregatorAgent.aggregateTypeResults, AggregatorAgent.maxConfOf,
      sortByKeyDesc, List.insertionSort, List.orderedInsert, firstArgmaxBy,
      hd, Document.relevance]

/-- Sanity check of long-term retrieval: unlike the short-term tier, the
long-term tier does match a fresh query by identical text (Jaccard
similarity 1 against the previously stored query), returning its documents
at confidence 1. -/
theorem long_term_retrieve_matches_by_text :
    (LongTermMemory.retrieve
      { queries := [{ id := "q1", text := pystr "the cat" }],
        documents := [{ id := "d1", content := pystr "c", source := "s" }],
        entries := [{ id := "m1", query_id := "q1", document_ids := ["d1"],
                      created_at := 0, access_count := 0,
                      relevance_score := 8/10, memory_type := "long_term" }],
        assoc := [("m1", "d1")] }
      { id := "q2", text := pystr "the cat" }).1 =
    some { agent_id := "long_term_memory", agent_type := .MEMORY,
           query_id := "q2",
           documents := [{ id := "d1", content := pystr "c", source := "s" }],
           confidence := 1 } := by
  have hi : interCard (pyset (pyWords (pyLower (pystr "the cat"))))
      (pyset (pyWords (pyLower (pystr "the cat")))) = 2 := by decide
  have hu : unionCard (pyset (pyWords (pyLower (pystr "the cat"))))
      (pyset (pyWords (pyLower (pystr "the cat")))) = 2 := by decide
  norm_num +decide [LongTermMemory.retrieve, LongTermMemory.storeQuery,
    LongTermMemory.findSimilarQueries, LongTermMemory.updateMemoryAccess,
    LongTermMemory.documentsForMemory, jaccardSim, hi, hu, sortByKeyDesc,
    List.insertionSort, List.orderedInsert]
